/-
Verification of the review-service domain logic (xshopai/review-service).

This file contains a shallow embedding, in Lean 4, of the review domain
service (`src/services/review.service.js`, the stricter of the two service
variants), the mongoose review schema and its pre-save hook
(`src/models/review.model.js`), the moderation controllers
(`src/controllers/review.controller.js`) and the event publisher
(`src/events/publisher.js`), together with theorems about the embedded
definitions.

Modelling conventions:
- JavaScript numbers used as counters are modelled as `Int`; timestamps as
  `Nat`; JS strings as `String`; absent/undefined values as `Option`.
- The database is a list of review documents; `findById`, `save`,
  `findByIdAndDelete` and `updateMany` are modelled as list operations.
- Mongoose runs schema validation before the user `pre('save')` hook; the
  embedded `saveReview` mirrors that order.
- External calls (product existence, purchase validation, the messaging
  transport) are modelled by explicit outcome parameters.
-/
import Mathlib

namespace ReviewSvc

/-- A MongoDB ObjectId, as stored for `productId` and `userId` in the review
schema (`review.model.js` declares both with type `ObjectId`). -/
structure ObjectId where
  oid : String
deriving DecidableEq, Repr

/-- JavaScript strict equality (`===`) between a mongoose `ObjectId` value and
a primitive string. In JavaScript an object is never strictly equal to a
primitive, so this comparison is `false` whatever the contents are. The
service relies on this comparison in `voteOnReview`
(`if (review.userId === userId)`), unlike `updateReview`/`deleteReview`,
which convert both sides with `.toString()` first ("ensure both are strings
for comparison"). -/
def objectIdStrictEqString (_ : ObjectId) (_ : String) : Bool := false

/-- JS truthiness test `!s` for an optional string: `undefined`/`null` and the
empty string are falsy (whitespace-only strings are truthy). -/
def jsStrFalsy : Option String → Bool
  | none => true
  | some s => s == ""

/-- JS test `!s?.trim()` used by the pre-save hook: absent or
whitespace-only strings count as blank (a string trims to the empty string
exactly when all of its characters are whitespace). -/
def jsStrBlank : Option String → Bool
  | none => true
  | some s => s.data.all (fun c => c.isWhitespace)

/-- One entry of `helpfulVotes.userVotes` (review.model.js lines 69-85). -/
structure UserVote where
  userId : String
  vote : String
  votedAt : Nat
deriving DecidableEq, Repr

/-- The `helpfulVotes` block of a review document (review.model.js lines
58-86): two counters plus the per-voter records. -/
structure HelpfulVotes where
  helpful : Int
  notHelpful : Int
  userVotes : List UserVote
deriving DecidableEq, Repr

/-- The two legal vote categories (`enum: ['helpful', 'notHelpful']`). -/
def voteEnum : List String := ["helpful", "notHelpful"]

/-- The legal review statuses (`enum` of the `status` path). -/
def statusEnum : List String := ["pending", "approved", "rejected", "hidden"]

/-- `review.helpfulVotes[key]++` for `key` one of the two counter names. -/
def counterIncr (hv : HelpfulVotes) (key : String) : HelpfulVotes :=
  if key == "helpful" then { hv with helpful := hv.helpful + 1 }
  else if key == "notHelpful" then { hv with notHelpful := hv.notHelpful + 1 }
  else hv

/-- `review.helpfulVotes[key]--` for `key` one of the two counter names. -/
def counterDecr (hv : HelpfulVotes) (key : String) : HelpfulVotes :=
  if key == "helpful" then { hv with helpful := hv.helpful - 1 }
  else if key == "notHelpful" then { hv with notHelpful := hv.notHelpful - 1 }
  else hv

/-- Read a counter by its JS key. -/
def counterGet (hv : HelpfulVotes) (key : String) : Int :=
  if key == "helpful" then hv.helpful else hv.notHelpful

/-- Decomposition of `userVotes.findIndex((v) => v.userId === userId)`
together with the list surgery the service performs at the found index: the
result is the prefix before the first record of `uid`, that record, and the
suffix after it (`none` when `findIndex` returns `-1`). -/
def findVoteSplit : List UserVote → String → Option (List UserVote × UserVote × List UserVote)
  | [], _ => none
  | v :: rest, uid =>
    if v.userId == uid then some ([], v, rest)
    else
      match findVoteSplit rest uid with
      | some (pre, u, post) => some (v :: pre, u, post)
      | none => none

/-- The vote mutation of `ReviewService.voteOnReview` (review.service.js lines
347-371) on the `helpfulVotes` block: same vote → splice the record out and
decrement its counter; different vote → rewrite the record in place,
decrement the old counter and increment the new one; no record → push a new
record and increment its counter. -/
def applyVote (hv : HelpfulVotes) (uid vt : String) (now : Nat) : HelpfulVotes :=
  match findVoteSplit hv.userVotes uid with
  | some (pre, v, post) =>
    if v.vote == vt then
      counterDecr { hv with userVotes := pre ++ post } v.vote
    else
      counterIncr
        (counterDecr
          { hv with userVotes := pre ++ ({ v with vote := vt, votedAt := now } :: post) }
          v.vote)
        vt
  | none =>
    counterIncr { hv with userVotes := hv.userVotes ++ [⟨uid, vt, now⟩] } vt

/-- Number of voter records carrying the category `c`. -/
def countVote (c : String) (votes : List UserVote) : Nat :=
  votes.countP (fun v => v.vote == c)

/-- Moderation / bookkeeping metadata written by the service (the service
writes `review.metadata` fields in create, update and the moderation
operations). -/
structure ReviewMetadata where
  source : Option String
  updatedAt : Option Nat
  moderatedAt : Option Nat
  moderatedBy : Option String
  rejectionReason : Option String
  hiddenAt : Option Nat
  hiddenBy : Option String
  hideReason : Option String
deriving DecidableEq, Repr

/-- Metadata with no field set. -/
def emptyMetadata : ReviewMetadata :=
  ⟨none, none, none, none, none, none, none, none⟩

/-- A review document (review.model.js lines 3-110), as seen by the domain
service. -/
structure Review where
  id : String
  productId : ObjectId
  userId : ObjectId
  username : String
  rating : Int
  title : Option String
  comment : Option String
  isVerifiedPurchase : Bool
  orderReference : Option String
  status : String
  helpfulVotes : HelpfulVotes
  images : List String
  videos : List String
  createdBy : String
  updatedBy : String
  createdAt : Nat
  updatedAt : Nat
  metadata : ReviewMetadata
deriving DecidableEq, Repr

/-- The validators of the `userVotes` sub-schema plus the `min: 0` validators
on the two counters. -/
def hvValid (hv : HelpfulVotes) : Bool :=
  decide (0 ≤ hv.helpful) && decide (0 ≤ hv.notHelpful) &&
    hv.userVotes.all (fun v => voteEnum.contains v.vote && v.userId != "")

/-- The mongoose validators of the review schema: required strings reject the
empty string, `rating` is clamped to `min: 1, max: 5`, `title`/`comment`
respect their `maxlength`, `status` and each vote respect their enums. -/
def schemaValidate (r : Review) : Bool :=
  r.username != "" &&
    decide (1 ≤ r.rating) && decide (r.rating ≤ 5) &&
    (match r.title with | none => true | some t => decide (t.length ≤ 200)) &&
    (match r.comment with | none => true | some c => decide (c.length ≤ 2000)) &&
    statusEnum.contains r.status &&
    hvValid r.helpfulVotes &&
    r.createdBy != "" && r.updatedBy != ""

/-- The user-defined `pre('save')` hook (review.model.js lines 125-146):
reject documents with neither title nor comment, stamp `createdBy`/`createdAt`
for new documents and always stamp `updatedBy`/`updatedAt` (`updatedBy` is set
to the review's own `userId`). -/
def preSaveHook (isNew : Bool) (now : Nat) (r : Review) : Except String Review :=
  if jsStrBlank r.title && jsStrBlank r.comment then
    .error "Review must have either a title or comment"
  else
    let r1 :=
      if isNew then
        { r with
          createdBy := if r.createdBy == "" then r.userId.oid else r.createdBy,
          createdAt := now }
      else r
    .ok { r1 with updatedBy := r1.userId.oid, updatedAt := now }

/-- `document.save()`: mongoose runs schema validation first, then the
user `pre('save')` hook, then persists the document. -/
def saveReview (isNew : Bool) (now : Nat) (r : Review) : Except String Review :=
  if schemaValidate r then preSaveHook isNew now r
  else .error "Review validation failed"

/-- Modelled from the spec: `core/errors.js` (imported by the domain service
as `ErrorResponse`) is not among the provided sources. Per the spec's error
taxonomy, an error carries a human-readable message, an HTTP status code and
an optional stable machine-readable code, matching every construction site in
review.service.js (`new ErrorResponse(message, status)` and
`new ErrorResponse(message, status, code)`). -/
structure ErrorResponse where
  message : String
  statusCode : Nat
  code : Option String
deriving DecidableEq, Repr

/-- `Review.findById(id)` over the embedded collection. -/
def findById (rs : List Review) (id : String) : Option Review :=
  rs.find? (fun r => r.id == id)

/-- Persisting a saved document: the stored copy with the same `_id` is
replaced by the saved one. -/
def replaceById : List Review → String → Review → List Review
  | [], _, _ => []
  | r :: rest, id, newR =>
    if r.id == id then newR :: rest else r :: replaceById rest id newR

/-- `Review.findByIdAndDelete(id)`: physical removal of the document with the
given `_id`. -/
def removeById : List Review → String → List Review
  | [], _ => []
  | r :: rest, id => if r.id == id then rest else r :: removeById rest id

/-- The `data` payload of a published CloudEvent. One record covers the
three payload shapes built by publisher.js (`review.created`,
`review.updated`, `review.deleted`); fields a shape does not carry are
`none`. -/
structure EventData where
  reviewId : String
  productId : String
  userId : String
  username : Option String
  rating : Int
  previousRating : Option Int
  title : String
  comment : String
  isVerifiedPurchase : Bool
  orderReference : Option (Option String)
  status : Option String
  helpfulCount : Option Int
  createdAt : Option Nat
  updatedAt : Option Nat
  deletedAt : Option Nat
  deletedBy : Option String
deriving DecidableEq, Repr

/-- A CloudEvents-style envelope as built by publisher.js (specversion,
type, source, id, time, datacontenttype, data, metadata, optional
traceparent). -/
structure CloudEvent where
  specversion : String
  type : String
  source : String
  id : String
  time : Nat
  datacontenttype : String
  data : EventData
  metadataUserId : String
  metadataCausationId : Option String
  traceparent : Option String
deriving DecidableEq, Repr

/-- A messaging provider (`src/messaging/*`): `publishEvent(topic, event,
correlationId)` either resolves with a boolean success indicator or raises. -/
structure MessagingProvider where
  publishOutcome : String → CloudEvent → Option String → Except String Bool

/-- The `EventPublisher` singleton (publisher.js lines 17-307): a service
name and an optional initialized provider. Its publish methods are
`publishEvent`, `publishReviewCreated`, `publishReviewUpdated` and
`publishReviewDeleted`; no `publishReviewApproved` method is defined. -/
structure EventPublisher where
  serviceName : String
  provider : Option MessagingProvider

/-- W3C traceparent construction `00-<traceId>-<spanId>-01`; the span id
falls back to a freshly generated one when absent. -/
def mkTraceparent (traceId spanId : Option String) (genSpan : String) : Option String :=
  traceId.map (fun t => "00-" ++ t ++ "-" ++ (spanId.getD genSpan) ++ "-01")

/-- Outcome of one publish call: the resolved boolean plus the list of
envelopes handed to the transport during the call (empty when the provider
is missing, a singleton otherwise). -/
abbrev PublishResult := Except String (Bool × List CloudEvent)

/-- `EventPublisher.publishEvent` (publisher.js lines 48-94): when no
provider is initialized, log a warning and return `false` immediately;
otherwise build the CloudEvent and delegate to the provider. The
nondeterministic inputs (current time, generated event id and span id) are
explicit parameters. -/
def EventPublisher.publishEvent (pub : EventPublisher) (topic eventType : String)
    (data : EventData) (traceId spanId : Option String)
    (now : Nat) (eventId genSpan : String) : PublishResult :=
  match pub.provider with
  | none => .ok (false, [])
  | some p =>
    let cloudEvent : CloudEvent :=
      { specversion := "1.0", type := eventType, source := pub.serviceName,
        id := eventId, time := now, datacontenttype := "application/json",
        data := data, metadataUserId := data.userId, metadataCausationId := none,
        traceparent := mkTraceparent traceId spanId genSpan }
    match p.publishOutcome topic cloudEvent traceId with
    | .ok b => .ok (b, [cloudEvent])
    | .error e => .error e

/-- `EventPublisher.publishReviewCreated` (publisher.js lines 102-161): build
the `review.created` payload and envelope, return `false` when no provider is
initialized, otherwise publish to the fixed topic `review-events`. -/
def EventPublisher.publishReviewCreated (pub : EventPublisher) (review : Review)
    (traceId spanId : Option String) (now : Nat) (eventId genSpan : String) : PublishResult :=
  let eventData : EventData :=
    { reviewId := review.id, productId := review.productId.oid,
      userId := review.userId.oid, username := some review.username,
      rating := review.rating, previousRating := none,
      title := review.title.getD "", comment := review.comment.getD "",
      isVerifiedPurchase := review.isVerifiedPurchase,
      orderReference := some review.orderReference,
      status := some review.status,
      helpfulCount := some review.helpfulVotes.helpful,
      createdAt := some review.createdAt, updatedAt := none,
      deletedAt := none, deletedBy := none }
  let cloudEvent : CloudEvent :=
    { specversion := "1.0", type := "review.created", source := pub.serviceName,
      id := eventId, time := now, datacontenttype := "application/json",
      data := eventData, metadataUserId := eventData.userId,
      metadataCausationId := review.orderReference,
      traceparent := mkTraceparent traceId spanId genSpan }
  match pub.provider with
  | none => .ok (false, [])
  | some p =>
    match p.publishOutcome "review-events" cloudEvent traceId with
    | .ok b => .ok (b, [cloudEvent])
    | .error e => .error e

/-- `EventPublisher.publishReviewUpdated` (publisher.js lines 170-229):
`review.updated` payload additionally carries the previous rating. -/
def EventPublisher.publishReviewUpdated (pub : EventPublisher) (review : Review)
    (previousRating : Int) (traceId spanId : Option String)
    (now : Nat) (eventId genSpan : String) : PublishResult :=
  let eventData : EventData :=
    { reviewId := review.id, productId := review.productId.oid,
      userId := review.userId.oid, username := some review.username,
      rating := review.rating, previousRating := some previousRating,
      title := review.title.getD "", comment := review.comment.getD "",
      isVerifiedPurchase := review.isVerifiedPurchase,
      orderReference := none, status := some review.status,
      helpfulCount := none, createdAt := none,
      updatedAt := some review.updatedAt, deletedAt := none, deletedBy := none }
  let cloudEvent : CloudEvent :=
    { specversion := "1.0", type := "review.updated", source := pub.serviceName,
      id := eventId, time := now, datacontenttype := "application/json",
      data := eventData, metadataUserId := eventData.userId,
      metadataCausationId := none,
      traceparent := mkTraceparent traceId spanId genSpan }
  match pub.provider with
  | none => .ok (false, [])
  | some p =>
    match p.publishOutcome "review-events" cloudEvent traceId with
    | .ok b => .ok (b, [cloudEvent])
    | .error e => .error e

/-- `EventPublisher.publishReviewDeleted` (publisher.js lines 237-290):
`review.deleted` payload built from the pre-deletion snapshot. -/
def EventPublisher.publishReviewDeleted (pub : EventPublisher) (review : Review)
    (traceId spanId : Option String) (now : Nat) (eventId genSpan : String) : PublishResult :=
  let eventData : EventData :=
    { reviewId := review.id, productId := review.productId.oid,
      userId := review.userId.oid, username := none,
      rating := review.rating, previousRating := none,
      title := "", comment := "",
      isVerifiedPurchase := review.isVerifiedPurchase,
      orderReference := none, status := none, helpfulCount := none,
      createdAt := none, updatedAt := none,
      deletedAt := some now, deletedBy := some review.userId.oid }
  let cloudEvent : CloudEvent :=
    { specversion := "1.0", type := "review.deleted", source := pub.serviceName,
      id := eventId, time := now, datacontenttype := "application/json",
      data := eventData, metadataUserId := eventData.userId,
      metadataCausationId := none,
      traceparent := mkTraceparent traceId spanId genSpan }
  match pub.provider with
  | none => .ok (false, [])
  | some p =>
    match p.publishOutcome "review-events" cloudEvent traceId with
    | .ok b => .ok (b, [cloudEvent])
    | .error e => .error e

/-- The `review.approved` publish attempt made by
`ReviewService.approveReview` (review.service.js line 711):
`eventPublisher.publishReviewApproved(updatedReview, traceId, spanId)`. The
`EventPublisher` class in publisher.js defines no `publishReviewApproved`
method, so in JavaScript this call raises
`TypeError: eventPublisher.publishReviewApproved is not a function` before
any envelope is built or handed to the provider. -/
def publishReviewApprovedAttempt (_pub : EventPublisher) : PublishResult :=
  .error "TypeError: eventPublisher.publishReviewApproved is not a function"

/-- The persistent and observable state the embedded operations act on: the
review collection plus the stream of envelopes handed to the transport. -/
structure World where
  reviews : List Review
  published : List CloudEvent
deriving DecidableEq, Repr

/-- Append the envelopes of a publish outcome to the world; a raised publish
error reaches the domain service's catch block, which logs and continues, so
it leaves the world unchanged. -/
def recordPublish (w : World) (res : PublishResult) : World :=
  match res with
  | .ok (_, evs) => { w with published := w.published ++ evs }
  | .error _ => w

/-- The authenticated user object the HTTP layer hands to the service
(id, username, roles, admin flag, optional active flag from the JWT). -/
structure User where
  userId : String
  username : String
  roles : List String
  isAdmin : Bool
  isActive : Option Bool
deriving DecidableEq, Repr

/-- `ReviewService.validateUserCanCreateReview` (review.service.js lines
652-678): a user whose roles include `admin` or whose `isAdmin` flag is set
cannot create reviews (403, `ADMIN_CANNOT_REVIEW`); a user with
`isActive === false` cannot either (403, `USER_INACTIVE`). -/
def validateUserCanCreateReview (user : User) : Except ErrorResponse Unit :=
  if user.roles.contains "admin" || user.isAdmin then
    .error ⟨"Administrators cannot create product reviews to avoid conflict of interest",
      403, some "ADMIN_CANNOT_REVIEW"⟩
  else if user.isActive == some false then
    .error ⟨"Your account is not active. Please contact support.", 403, some "USER_INACTIVE"⟩
  else
    .ok ()

/-- The `review` section of the configuration, read through optional
chaining (`config.review?.flag`); the section may be absent (the config.js
in the sources does not define it). -/
structure ReviewPolicy where
  requirePurchase : Bool
  autoApproveVerified : Bool
  moderationRequired : Bool
deriving DecidableEq, Repr

structure Config where
  serviceName : String
  review : Option ReviewPolicy
deriving DecidableEq, Repr

/-- `config.review?.requirePurchase` truthiness. -/
def cfgRequirePurchase (c : Config) : Bool := (c.review.map (·.requirePurchase)).getD false

/-- `config.review?.autoApproveVerified` truthiness. -/
def cfgAutoApproveVerified (c : Config) : Bool := (c.review.map (·.autoApproveVerified)).getD false

/-- `config.review?.moderationRequired` truthiness. -/
def cfgModerationRequired (c : Config) : Bool := (c.review.map (·.moderationRequired)).getD false

/-- `ReviewService.determineInitialStatus` (review.service.js lines 452-457). -/
def determineInitialStatus (cfg : Config) (isVerifiedPurchase : Bool) : String :=
  if cfgAutoApproveVerified cfg && isVerifiedPurchase then "approved"
  else if cfgModerationRequired cfg then "pending" else "approved"

/-- Outcome of the external product-existence check performed by
`validateProduct` (review.service.js lines 462-494). -/
inductive ProductCheck where
  /-- No sidecar client available: the check is skipped and creation allowed. -/
  | noClient
  /-- The product service answered that the product exists. -/
  | found
  /-- The product service answered that the product does not exist (or the
  invocation error mentions 404 / not found). -/
  | notFound
  /-- The invocation failed for another reason: logged, creation allowed. -/
  | unreachable
deriving DecidableEq, Repr

/-- `ReviewService.validateProduct`: only a confirmed missing product blocks
creation; unavailability is permissive. -/
def validateProduct : ProductCheck → Except ErrorResponse Bool
  | .noClient => .ok true
  | .found => .ok true
  | .notFound => .error ⟨"Product not found", 404, none⟩
  | .unreachable => .ok true

/-- Outcome of the external purchase validation performed by
`validatePurchase` (review.service.js lines 499-526). -/
inductive PurchaseCheck where
  /-- No sidecar client: cannot verify, returns false. -/
  | noClient
  /-- The order service confirmed the purchase. -/
  | valid
  /-- The order service denied the purchase. -/
  | invalid
  /-- The invocation failed: logged, returns false. -/
  | unreachable
deriving DecidableEq, Repr

/-- `ReviewService.validatePurchase`: only a confirmed purchase yields true. -/
def validatePurchase : PurchaseCheck → Bool
  | .valid => true
  | _ => false

/-- The review submission body (`reviewData`) accepted by `createReview`. -/
structure ReviewData where
  productId : String
  rating : Int
  title : Option String
  comment : Option String
  orderReference : Option String
  images : List String
  videos : List String
  source : Option String
deriving DecidableEq, Repr

/-- `ReviewService.createReview` (review.service.js lines 12-102) up to and
including `review.save()`: admin/inactive gate, duplicate check for the
(product, author) pair, product-existence check, purchase validation, the
require-purchase gate, initial status assignment and document construction
with the schema defaults (`helpfulVotes = {0, 0, []}`, `status` from
`determineInitialStatus`). -/
def createReviewCore (rs : List Review) (cfg : Config)
    (productCheck : ProductCheck) (purchaseCheck : PurchaseCheck)
    (reviewData : ReviewData) (user : User) (now : Nat) (freshId : String) :
    Except ErrorResponse Review :=
  match validateUserCanCreateReview user with
  | .error e => .error e
  | .ok () =>
    match rs.find? (fun r => r.productId.oid == reviewData.productId
        && r.userId.oid == user.userId) with
    | some _ => .error ⟨"User has already reviewed this product", 409, none⟩
    | none =>
      match validateProduct productCheck with
      | .error e => .error e
      | .ok _ =>
        let isVerifiedPurchase :=
          match reviewData.orderReference with
          | some _ => validatePurchase purchaseCheck
          | none => false
        if cfgRequirePurchase cfg && !isVerifiedPurchase then
          .error ⟨"You must purchase this product before writing a review. Please provide a valid order reference.",
            403, some "PURCHASE_REQUIRED"⟩
        else
          let status := determineInitialStatus cfg isVerifiedPurchase
          let review : Review :=
            { id := freshId,
              productId := ⟨reviewData.productId⟩,
              userId := ⟨user.userId⟩,
              username := user.username,
              rating := reviewData.rating,
              title := reviewData.title,
              comment := reviewData.comment,
              isVerifiedPurchase := isVerifiedPurchase,
              orderReference := reviewData.orderReference,
              status := status,
              helpfulVotes := ⟨0, 0, []⟩,
              images := reviewData.images,
              videos := reviewData.videos,
              createdBy := user.userId,
              updatedBy := user.userId,
              createdAt := now,
              updatedAt := now,
              metadata := { emptyMetadata with source := some (reviewData.source.getD "web") } }
          match saveReview true now review with
          | .error msg => .error ⟨msg, 500, none⟩
          | .ok saved => .ok saved

/-- `ReviewService.createReview`, full flow: on success the saved document
joins the collection and a `review.created` event is published best-effort
(a publish failure is caught, logged and ignored). -/
def createReview (w : World) (cfg : Config) (pub : EventPublisher)
    (productCheck : ProductCheck) (purchaseCheck : PurchaseCheck)
    (reviewData : ReviewData) (user : User) (now : Nat) (freshId : String)
    (eventId genSpan : String) (traceId spanId : Option String) :
    Except ErrorResponse Review × World :=
  match createReviewCore w.reviews cfg productCheck purchaseCheck reviewData user now freshId with
  | .error e => (.error e, w)
  | .ok saved =>
    let w1 : World := { w with reviews := w.reviews ++ [saved] }
    (.ok saved, recordPublish w1 (pub.publishReviewCreated saved traceId spanId now eventId genSpan))

/-- The update body accepted by `updateReview`; `none` models a field absent
from the request (`updateData[field] !== undefined`). -/
structure UpdateData where
  rating : Option Int
  title : Option String
  comment : Option String
  images : Option (List String)
  videos : Option (List String)
deriving DecidableEq, Repr

/-- The allowed-fields loop of `updateReview` (review.service.js lines
258-263): copy each provided field of `['rating', 'title', 'comment',
'images', 'videos']` onto the document. -/
def applyUpdateFields (r : Review) (u : UpdateData) : Review :=
  let r := match u.rating with | some v => { r with rating := v } | none => r
  let r := match u.title with | some v => { r with title := some v } | none => r
  let r := match u.comment with | some v => { r with comment := some v } | none => r
  let r := match u.images with | some v => { r with images := v } | none => r
  match u.videos with | some v => { r with videos := v } | none => r

/-- `ReviewService.updateReview` (review.service.js lines 243-293) up to and
including `review.save()`: 404 when missing, 403 unless the caller owns the
review (string comparison via `.toString()`), apply the allowed fields,
stamp `metadata.updatedAt`, and reset `status` to `pending` whenever the
request carried a `rating` or a `comment`. -/
def updateReviewCore (rs : List Review) (reviewId userId : String)
    (updateData : UpdateData) (now : Nat) : Except ErrorResponse (Review × Int) :=
  match findById rs reviewId with
  | none => .error ⟨"Review not found", 404, none⟩
  | some review =>
    if review.userId.oid != userId then
      .error ⟨"You can only update your own reviews", 403, none⟩
    else
      let previousRating := review.rating
      let review1 := applyUpdateFields review updateData
      let review2 := { review1 with metadata := { review1.metadata with updatedAt := some now } }
      let review3 :=
        if updateData.rating.isSome || updateData.comment.isSome then
          { review2 with status := "pending" }
        else review2
      match saveReview false now review3 with
      | .error msg => .error ⟨msg, 500, none⟩
      | .ok saved => .ok (saved, previousRating)

/-- `ReviewService.updateReview`, full flow, with the best-effort
`review.updated` event carrying the previous rating. -/
def updateReview (w : World) (pub : EventPublisher) (reviewId userId : String)
    (updateData : UpdateData) (now : Nat) (eventId genSpan : String)
    (traceId spanId : Option String) : Except ErrorResponse Review × World :=
  match updateReviewCore w.reviews reviewId userId updateData now with
  | .error e => (.error e, w)
  | .ok (saved, previousRating) =>
    let w1 : World := { w with reviews := replaceById w.reviews reviewId saved }
    (.ok saved,
      recordPublish w1 (pub.publishReviewUpdated saved previousRating traceId spanId now eventId genSpan))

/-- `ReviewService.deleteReview` (review.service.js lines 298-328) up to and
including `findByIdAndDelete`: 404 when missing, 403 unless the caller owns
the review; returns the pre-deletion snapshot used for the event. -/
def deleteReviewCore (rs : List Review) (reviewId userId : String) :
    Except ErrorResponse Review :=
  match findById rs reviewId with
  | none => .error ⟨"Review not found", 404, none⟩
  | some review =>
    if review.userId.oid != userId then
      .error ⟨"You can only delete your own reviews", 403, none⟩
    else
      .ok review

/-- `ReviewService.deleteReview`, full flow, with the best-effort
`review.deleted` event. -/
def deleteReview (w : World) (pub : EventPublisher) (reviewId userId : String)
    (now : Nat) (eventId genSpan : String) (traceId spanId : Option String) :
    Except ErrorResponse Bool × World :=
  match deleteReviewCore w.reviews reviewId userId with
  | .error e => (.error e, w)
  | .ok review =>
    let w1 : World := { w with reviews := removeById w.reviews reviewId }
    (.ok true,
      recordPublish w1 (pub.publishReviewDeleted review traceId spanId now eventId genSpan))

/-- `ReviewService.voteOnReview` (review.service.js lines 333-375): validate
the vote category, 404 when the review is missing, the self-vote guard
(which compares the stored `ObjectId` to the JWT string with `===`), the
vote mutation and `review.save()`. -/
def voteOnReview (w : World) (reviewId userId voteType : String) (now : Nat) :
    Except ErrorResponse Review × World :=
  if !(voteEnum.contains voteType) then
    (.error ⟨"Vote must be either \"helpful\" or \"notHelpful\"", 400, none⟩, w)
  else
    match findById w.reviews reviewId with
    | none => (.error ⟨"Review not found", 404, none⟩, w)
    | some review =>
      if objectIdStrictEqString review.userId userId then
        (.error ⟨"You cannot vote on your own review", 403, none⟩, w)
      else
        let review1 := { review with helpfulVotes := applyVote review.helpfulVotes userId voteType now }
        match saveReview false now review1 with
        | .error msg => (.error ⟨msg, 500, none⟩, w)
        | .ok saved => (.ok saved, { w with reviews := replaceById w.reviews reviewId saved })

/-- `ReviewService.approveReview` (review.service.js lines 687-725) up to and
including `review.save()`: 404 when missing, 400 when already approved, then
status `approved`, `updatedBy` and moderation metadata stamped. No reason is
read or required. -/
def approveReviewCore (rs : List Review) (reviewId : String) (adminUser : User)
    (now : Nat) : Except ErrorResponse Review :=
  match findById rs reviewId with
  | none => .error ⟨"Review not found", 404, none⟩
  | some review =>
    if review.status == "approved" then
      .error ⟨"Review is already approved", 400, none⟩
    else
      let review1 :=
        { review with
          status := "approved",
          updatedBy := adminUser.userId,
          metadata := { review.metadata with moderatedAt := some now, moderatedBy := some adminUser.userId } }
      match saveReview false now review1 with
      | .error msg => .error ⟨msg, 500, none⟩
      | .ok saved => .ok saved

/-- `ReviewService.approveReview`, full flow: the `review.approved` publish
attempt (`publishReviewApprovedAttempt`) is wrapped in try/catch, so its
failure is logged and the approved review is returned regardless. -/
def approveReview (w : World) (pub : EventPublisher) (reviewId : String)
    (adminUser : User) (now : Nat) : Except ErrorResponse Review × World :=
  match approveReviewCore w.reviews reviewId adminUser now with
  | .error e => (.error e, w)
  | .ok saved =>
    let w1 : World := { w with reviews := replaceById w.reviews reviewId saved }
    (.ok saved, recordPublish w1 (publishReviewApprovedAttempt pub))

/-- `ReviewService.rejectReview` (review.service.js lines 735-766): 404 when
missing, 400 when already rejected, then status `rejected`, `updatedBy` and
moderation metadata (including `rejectionReason`) stamped and saved. The
service itself does not check the reason. -/
def rejectReview (w : World) (reviewId : String) (adminUser : User)
    (reason : String) (now : Nat) : Except ErrorResponse Review × World :=
  match findById w.reviews reviewId with
  | none => (.error ⟨"Review not found", 404, none⟩, w)
  | some review =>
    if review.status == "rejected" then
      (.error ⟨"Review is already rejected", 400, none⟩, w)
    else
      let review1 :=
        { review with
          status := "rejected",
          updatedBy := adminUser.userId,
          metadata := { review.metadata with
            moderatedAt := some now, moderatedBy := some adminUser.userId,
            rejectionReason := some reason } }
      match saveReview false now review1 with
      | .error msg => (.error ⟨msg, 500, none⟩, w)
      | .ok saved => (.ok saved, { w with reviews := replaceById w.reviews reviewId saved })

/-- `ReviewService.hideReview` (review.service.js lines 776-807): 404 when
missing, 400 when already hidden, then status `hidden` and hide metadata
stamped and saved. The service itself does not check the reason. -/
def hideReview (w : World) (reviewId : String) (adminUser : User)
    (reason : String) (now : Nat) : Except ErrorResponse Review × World :=
  match findById w.reviews reviewId with
  | none => (.error ⟨"Review not found", 404, none⟩, w)
  | some review =>
    if review.status == "hidden" then
      (.error ⟨"Review is already hidden", 400, none⟩, w)
    else
      let review1 :=
        { review with
          status := "hidden",
          updatedBy := adminUser.userId,
          metadata := { review.metadata with
            hiddenAt := some now, hiddenBy := some adminUser.userId,
            hideReason := some reason } }
      match saveReview false now review1 with
      | .error msg => (.error ⟨msg, 500, none⟩, w)
      | .ok saved => (.ok saved, { w with reviews := replaceById w.reviews reviewId saved })

/-- The `$set` document `bulkModerateReviews` applies to each targeted
review (review.service.js lines 835-846). `updateMany` bypasses document
validation and the save hook. When a truthy reason accompanies the action it
is stored under `rejectionReason` for `reject` and `hideReason` otherwise. -/
def bulkApplySet (action : String) (adminUser : User) (reason : Option String)
    (now : Nat) (r : Review) : Review :=
  let statusNew :=
    if action == "approve" then "approved"
    else if action == "reject" then "rejected"
    else "hidden"
  let r1 :=
    { r with
      status := statusNew,
      updatedBy := adminUser.userId,
      metadata := { r.metadata with moderatedAt := some now, moderatedBy := some adminUser.userId } }
  if jsStrFalsy reason then r1
  else if action == "reject" then
    { r1 with metadata := { r1.metadata with rejectionReason := reason } }
  else
    { r1 with metadata := { r1.metadata with hideReason := reason } }

/-- `ReviewService.bulkModerateReviews` (review.service.js lines 818-860):
action whitelist, mandatory truthy reason for `reject`/`hide`, then one
`updateMany` over the targeted ids returning the count of affected records. -/
def bulkModerateReviews (w : World) (reviewIds : List String) (action : String)
    (adminUser : User) (reason : Option String) (now : Nat) :
    Except ErrorResponse (String × Nat × List String) × World :=
  if !(["approve", "reject", "hide"].contains action) then
    (.error ⟨"Invalid moderation action. Must be: approve, reject, or hide", 400, none⟩, w)
  else if (action == "reject" || action == "hide") && jsStrFalsy reason then
    (.error ⟨"Reason is required for " ++ action ++ " action", 400, none⟩, w)
  else
    let newReviews := w.reviews.map
      (fun r => if reviewIds.contains r.id then bulkApplySet action adminUser reason now r else r)
    let modifiedCount := (w.reviews.filter (fun r => reviewIds.contains r.id)).length
    (.ok (action, modifiedCount, reviewIds), { w with reviews := newReviews })

/-- The JSON response a controller sends: HTTP status, the `success` flag,
the message, and the stable error code when the error middleware serializes
an `ErrorResponse` that carries one. -/
structure HttpResponse where
  status : Nat
  success : Bool
  message : String
  errorCode : Option String
deriving DecidableEq, Repr

/-- The `rejectReview` controller (review.controller.js lines 171-188): a
falsy `reason` short-circuits with a plain 400 response (no stable code)
before the service runs; otherwise the service outcome is serialized. -/
def rejectReviewCtrl (w : World) (reviewId : String) (adminUser : User)
    (reason : Option String) (now : Nat) : HttpResponse × World :=
  if jsStrFalsy reason then
    (⟨400, false, "Rejection reason is required", none⟩, w)
  else
    match rejectReview w reviewId adminUser (reason.getD "") now with
    | (.ok _, w1) => (⟨200, true, "Review rejected successfully", none⟩, w1)
    | (.error e, w1) => (⟨e.statusCode, false, e.message, e.code⟩, w1)

/-- The `hideReview` controller (review.controller.js lines 193-210),
analogous to the reject controller. -/
def hideReviewCtrl (w : World) (reviewId : String) (adminUser : User)
    (reason : Option String) (now : Nat) : HttpResponse × World :=
  if jsStrFalsy reason then
    (⟨400, false, "Hide reason is required", none⟩, w)
  else
    match hideReview w reviewId adminUser (reason.getD "") now with
    | (.ok _, w1) => (⟨200, true, "Review hidden successfully", none⟩, w1)
    | (.error e, w1) => (⟨e.statusCode, false, e.message, e.code⟩, w1)

/-- The `approveReview` controller (review.controller.js lines 158-166): no
reason is read at all. -/
def approveReviewCtrl (w : World) (pub : EventPublisher) (reviewId : String)
    (adminUser : User) (now : Nat) : HttpResponse × World :=
  match approveReview w pub reviewId adminUser now with
  | (.ok _, w1) => (⟨200, true, "Review approved successfully", none⟩, w1)
  | (.error e, w1) => (⟨e.statusCode, false, e.message, e.code⟩, w1)

/-- One state-changing operation of the domain service, with all the
nondeterministic inputs (clock values, generated ids, external check
outcomes, the wired publisher) carried in the constructor. -/
inductive ServiceOp where
  | create (cfg : Config) (pub : EventPublisher) (pc : ProductCheck) (qc : PurchaseCheck)
      (d : ReviewData) (u : User) (now : Nat) (freshId eventId genSpan : String)
      (traceId spanId : Option String)
  | update (pub : EventPublisher) (id uid : String) (d : UpdateData) (now : Nat)
      (eventId genSpan : String) (traceId spanId : Option String)
  | delete (pub : EventPublisher) (id uid : String) (now : Nat)
      (eventId genSpan : String) (traceId spanId : Option String)
  | vote (id uid vt : String) (now : Nat)
  | approve (pub : EventPublisher) (id : String) (admin : User) (now : Nat)
  | reject (id : String) (admin : User) (reason : String) (now : Nat)
  | hide (id : String) (admin : User) (reason : String) (now : Nat)
  | bulkModerate (ids : List String) (action : String) (admin : User)
      (reason : Option String) (now : Nat)

/-- Execute one operation against the world, keeping only the resulting
state (a raised `ErrorResponse` reaches the HTTP error middleware and leaves
the state as it was). -/
def applyOp (w : World) : ServiceOp → World
  | .create cfg pub pc qc d u now fid eid gs t s =>
    (createReview w cfg pub pc qc d u now fid eid gs t s).2
  | .update pub id uid d now eid gs t s => (updateReview w pub id uid d now eid gs t s).2
  | .delete pub id uid now eid gs t s => (deleteReview w pub id uid now eid gs t s).2
  | .vote id uid vt now => (voteOnReview w id uid vt now).2
  | .approve pub id admin now => (approveReview w pub id admin now).2
  | .reject id admin reason now => (rejectReview w id admin reason now).2
  | .hide id admin reason now => (hideReview w id admin reason now).2
  | .bulkModerate ids action admin reason now =>
    (bulkModerateReviews w ids action admin reason now).2

/-- Two review documents address the same (product, author) pair. -/
def samePair (a b : Review) : Prop := a.productId = b.productId ∧ a.userId = b.userId

/-- The uniqueness invariant backed by the unique compound index
`{ productId: 1, userId: 1 }` (review.model.js line 116): no two stored
reviews share a (product, author) pair. -/
def PairUnique (rs : List Review) : Prop := rs.Pairwise (fun a b => ¬ samePair a b)

/-- One helpfulness-vote request as it reaches `voteOnReview`. -/
structure VoteReq where
  reviewId : String
  userId : String
  voteType : String
  now : Nat
deriving DecidableEq, Repr

/-- Run a finite sequence of vote requests. -/
def applyVoteSeq (w : World) : List VoteReq → World
  | [] => w
  | req :: rest => applyVoteSeq (voteOnReview w req.reviewId req.userId req.voteType req.now).2 rest

/-- Well-formedness of a `helpfulVotes` block: every record carries one of
the two legal categories, and each counter equals the number of records of
its category. -/
def VotesWF (hv : HelpfulVotes) : Prop :=
  (∀ v ∈ hv.userVotes, v.vote = "helpful" ∨ v.vote = "notHelpful") ∧
    hv.helpful = (countVote "helpful" hv.userVotes : Int) ∧
    hv.notHelpful = (countVote "notHelpful" hv.userVotes : Int)

/-- The category opposite to a given vote category. -/
def oppositeVote (vt : String) : String :=
  if vt == "helpful" then "notHelpful" else "helpful"

/-- Sample helpful-vote block: one recorded `helpful` vote by `u2`. -/
def hvSample : HelpfulVotes := ⟨1, 0, [⟨"u2", "helpful", 5⟩]⟩

/-- Sample stored review by author `u1` on product `p1`. -/
def reviewSample : Review :=
  { id := "r1", productId := ⟨"p1"⟩, userId := ⟨"u1"⟩, username := "alice",
    rating := 4, title := some "Nice", comment := some "Good product",
    isVerifiedPurchase := false, orderReference := none, status := "approved",
    helpfulVotes := hvSample, images := [], videos := [],
    createdBy := "u1", updatedBy := "u1", createdAt := 1, updatedAt := 1,
    metadata := emptyMetadata }

/-- Sample world holding just `reviewSample`. -/
def worldSample : World := ⟨[reviewSample], []⟩

/-- Sample world holding `reviewSample` with a pending status and no votes. -/
def worldPending : World :=
  ⟨[{ reviewSample with status := "pending", helpfulVotes := ⟨0, 0, []⟩ }], []⟩

/-- A provider whose transport always accepts the message. -/
def providerOk : MessagingProvider := ⟨fun _ _ _ => .ok true⟩

/-- A publisher wired to an always-succeeding provider. -/
def pubOk : EventPublisher := ⟨"review-service", some providerOk⟩

/-- A publisher whose `initialize()` never ran (`provider = null`). -/
def pubNone : EventPublisher := ⟨"review-service", none⟩

/-- Sample administrator (role `admin`). -/
def adminSample : User := ⟨"a1", "admin", ["admin"], false, none⟩

/-- Sample regular customer `u2`. -/
def customerSample : User := ⟨"u2", "bob", ["customer"], false, some true⟩

/-- Sample submission body for product `p1`. -/
def reviewDataSample : ReviewData :=
  ⟨"p1", 5, some "Great", some "Loved it", none, [], [], none⟩

/-- Sample configuration without a `review` section, as in the sources'
config.js. -/
def cfgSample : Config := ⟨"review-service", none⟩

/-- The document stored after `u2` casts a `helpful` vote (at time 5) on the
pending zero-vote sample review. -/
def c1WitnessReview : Review :=
  { reviewSample with
    status := "pending",
    helpfulVotes := ⟨1, 0, [⟨"u2", "helpful", 5⟩]⟩,
    updatedAt := 5 }

/-- The author of `reviewSample` acting with an `admin` role. -/
def adminOwnerSample : User := ⟨"u1", "alice", ["admin"], false, none⟩

/-- The stored result of a rating-only update (rating set to 3 at time 7) of
the sample review by its author. -/
def c8RatingUpdated : Review :=
  { reviewSample with
    rating := 3,
    status := "pending",
    metadata := { reviewSample.metadata with updatedAt := some 7 },
    updatedAt := 7 }

/-- The stored result of a media-only update (images set at time 7) of the
sample review by its author. -/
def c8MediaUpdated : Review :=
  { reviewSample with
    images := ["img"],
    metadata := { reviewSample.metadata with updatedAt := some 7 },
    updatedAt := 7 }

/-- At most one voter record per user id ("one vote per voter"): an
invariant of every document created and mutated through the service. -/
def OneVotePerVoter (hv : HelpfulVotes) : Prop :=
  hv.userVotes.Pairwise (fun a b => a.userId ≠ b.userId)

/-- The document `voteOnReview` persists on success: the vote mutation
applied to the helpfulVotes block, plus the audit stamps of the save hook. -/
def votedSaved (r : Review) (uid vt : String) (now : Nat) : Review :=
  { r with
    helpfulVotes := applyVote r.helpfulVotes uid vt now,
    updatedBy := r.userId.oid,
    updatedAt := now }

/-- The author of `reviewSample` acting as a regular active customer. -/
def customerOwnerSample : User := ⟨"u1", "alice", ["customer"], false, some true⟩

/-- The document stored by a successful `approveReview`: status approved,
moderation metadata stamped, and the save hook's audit stamps (the hook
overwrites `updatedBy` with the review's own author id). -/
def approvedSaved (r : Review) (admin : User) (now : Nat) : Review :=
  { r with
    status := "approved",
    metadata := { r.metadata with moderatedAt := some now, moderatedBy := some admin.userId },
    updatedBy := r.userId.oid,
    updatedAt := now }

theorem voteEnum_contains_iff (vt : String) :
    voteEnum.contains vt = true ↔ vt = "helpful" ∨ vt = "notHelpful" := by
  simp [voteEnum]

theorem findVoteSplit_eq (votes : List UserVote) (uid : String) :
    ∀ pre v post, findVoteSplit votes uid = some (pre, v, post) →
      votes = pre ++ v :: post := by
  induction votes with
  | nil => intro pre v post h; simp [findVoteSplit] at h
  | cons a rest ih =>
    intro pre v post h
    rw [findVoteSplit] at h
    split at h
    · simp at h
      obtain ⟨h1, h2, h3⟩ := h
      subst h1; subst h2; subst h3; rfl
    · cases hrec : findVoteSplit rest uid with
      | none => rw [hrec] at h; simp at h
      | some p =>
        obtain ⟨pre', u', post'⟩ := p
        rw [hrec] at h
        simp at h
        obtain ⟨h1, h2, h3⟩ := h
        subst h1; subst h2; subst h3
        simpa using ih _ _ _ hrec

theorem countVote_nil (c : String) : countVote c [] = 0 := rfl

theorem countVote_append (c : String) (l1 l2 : List UserVote) :
    countVote c (l1 ++ l2) = countVote c l1 + countVote c l2 := by
  simp [countVote, List.countP_append]

theorem countVote_cons (c : String) (v : UserVote) (l : List UserVote) :
    countVote c (v :: l) = (if v.vote = c then 1 else 0) + countVote c l := by
  simp [countVote, List.countP_cons]
  split <;> omega

theorem countVote_total (l : List UserVote)
    (h : ∀ v ∈ l, v.vote = "helpful" ∨ v.vote = "notHelpful") :
    countVote "helpful" l + countVote "notHelpful" l = l.length := by
  induction l with
  | nil => rfl
  | cons v rest ih =>
    rw [countVote_cons, countVote_cons]
    have hv := h v (by simp)
    have hrest := ih (fun u hu => h u (by simp [hu]))
    rcases hv with h1 | h1 <;> rw [h1] <;> simp <;> omega

theorem votesWF_applyVote (hv : HelpfulVotes) (uid vt : String) (now : Nat)
    (hvt : vt = "helpful" ∨ vt = "notHelpful") (h : VotesWF hv) :
    VotesWF (applyVote hv uid vt now) := by
  obtain ⟨hmem, hh, hn⟩ := h
  unfold applyVote
  cases hsplit : findVoteSplit hv.userVotes uid with
  | none =>
    dsimp only
    rcases hvt with rfl | rfl
    · refine ⟨?_, ?_, ?_⟩
      · intro v hvmem
        simp [counterIncr] at hvmem
        rcases hvmem with hvmem | rfl
        · exact hmem v hvmem
        · left; rfl
      · simp [counterIncr, countVote_append, countVote_cons, countVote_nil]
        omega
      · simp [counterIncr, countVote_append, countVote_cons, countVote_nil]
        omega
    · refine ⟨?_, ?_, ?_⟩
      · intro v hvmem
        simp [counterIncr] at hvmem
        rcases hvmem with hvmem | rfl
        · exact hmem v hvmem
        · right; rfl
      · simp [counterIncr, countVote_append, countVote_cons, countVote_nil]
        omega
      · simp [counterIncr, countVote_append, countVote_cons, countVote_nil]
        omega
  | some p =>
    obtain ⟨pre, v, post⟩ := p
    dsimp only
    have heq := findVoteSplit_eq hv.userVotes uid pre v post hsplit
    have hvmemold : v ∈ hv.userVotes := by rw [heq]; simp
    rw [heq] at hh hn
    rw [countVote_append, countVote_cons] at hh hn
    by_cases hvv : (v.vote == vt) = true
    · rw [if_pos hvv]
      replace hvv : v.vote = vt := by simpa using hvv
      rcases hvt with rfl | rfl
      · rw [hvv] at hh hn ⊢
        simp at hh hn
        refine ⟨?_, ?_, ?_⟩
        · intro u humem
          simp [counterDecr] at humem
          rcases humem with humem | humem
          · exact hmem u (by rw [heq]; simp [humem])
          · exact hmem u (by rw [heq]; simp [humem])
        · simp [counterDecr, countVote_append]
          omega
        · simp [counterDecr, countVote_append]
          omega
      · rw [hvv] at hh hn ⊢
        simp at hh hn
        refine ⟨?_, ?_, ?_⟩
        · intro u humem
          simp [counterDecr] at humem
          rcases humem with humem | humem
          · exact hmem u (by rw [heq]; simp [humem])
          · exact hmem u (by rw [heq]; simp [humem])
        · simp [counterDecr, countVote_append]
          omega
        · simp [counterDecr, countVote_append]
          omega
    · rw [if_neg hvv]
      replace hvv : ¬ (v.vote = vt) := by simpa using hvv
      have hvcat : v.vote = "helpful" ∨ v.vote = "notHelpful" := hmem v hvmemold
      rcases hvt with rfl | rfl
      · have hvn : v.vote = "notHelpful" := by
          rcases hvcat with h1 | h1
          · exact absurd h1 hvv
          · exact h1
        rw [hvn] at hh hn ⊢
        simp at hh hn
        refine ⟨?_, ?_, ?_⟩
        · intro u humem
          simp [counterIncr, counterDecr] at humem
          rcases humem with humem | rfl | humem
          · exact hmem u (by rw [heq]; simp [humem])
          · left; rfl
          · exact hmem u (by rw [heq]; simp [humem])
        · simp [counterIncr, counterDecr, countVote_append, countVote_cons]
          omega
        · simp [counterIncr, counterDecr, countVote_append, countVote_cons]
          omega
      · have hvn : v.vote = "helpful" := by
          rcases hvcat with h1 | h1
          · exact h1
          · exact absurd h1 hvv
        rw [hvn] at hh hn ⊢
        simp at hh hn
        refine ⟨?_, ?_, ?_⟩
        · intro u humem
          simp [counterIncr, counterDecr] at humem
          rcases humem with humem | rfl | humem
          · exact hmem u (by rw [heq]; simp [humem])
          · right; rfl
          · exact hmem u (by rw [heq]; simp [humem])
        · simp [counterIncr, counterDecr, countVote_append, countVote_cons]
          omega
        · simp [counterIncr, counterDecr, countVote_append, countVote_cons]
          omega

theorem saveReview_false_ok {now : Nat} {r s : Review}
    (h : saveReview false now r = .ok s) :
    s = { r with updatedBy := r.userId.oid, updatedAt := now } := by
  unfold saveReview preSaveHook at h
  split at h
  · split at h
    · simp at h
    · simp at h; exact h.symm
  · simp at h

theorem saveReview_false_ok_eq {now : Nat} {r : Review}
    (hval : schemaValidate r = true)
    (hblank : (jsStrBlank r.title && jsStrBlank r.comment) = false) :
    saveReview false now r = .ok { r with updatedBy := r.userId.oid, updatedAt := now } := by
  unfold saveReview preSaveHook
  simp [hval, hblank]

theorem saveReview_ok_fields {isNew : Bool} {now : Nat} {r s : Review}
    (h : saveReview isNew now r = .ok s) :
    s.helpfulVotes = r.helpfulVotes ∧ s.productId = r.productId ∧
      s.userId = r.userId ∧ s.id = r.id ∧ s.status = r.status := by
  unfold saveReview preSaveHook at h
  split at h
  · split at h
    · simp at h
    · cases isNew <;> simp at h <;> obtain rfl := h.symm <;> simp
  · simp at h

theorem mem_replaceById {l : List Review} {id : String} {x a : Review}
    (h : a ∈ replaceById l id x) : a = x ∨ a ∈ l := by
  induction l with
  | nil => simp [replaceById] at h
  | cons b rest ih =>
    rw [replaceById] at h
    split at h
    · simp at h
      rcases h with rfl | h
      · left; rfl
      · right; simp [h]
    · simp at h
      rcases h with rfl | h
      · right; simp
      · rcases ih h with rfl | h
        · left; rfl
        · right; simp [h]

theorem findById_mem {rs : List Review} {id : String} {r : Review}
    (h : findById rs id = some r) : r ∈ rs :=
  List.mem_of_find?_eq_some h

theorem votesWF_voteOnReview (w : World) (id uid vt : String) (now : Nat)
    (h : ∀ r ∈ w.reviews, VotesWF r.helpfulVotes) :
    ∀ r ∈ (voteOnReview w id uid vt now).2.reviews, VotesWF r.helpfulVotes := by
  intro r hr
  unfold voteOnReview at hr
  split at hr
  · exact h r hr
  · rename_i hvt
    have hvt' : vt = "helpful" ∨ vt = "notHelpful" := by
      rw [← voteEnum_contains_iff]
      simpa using hvt
    cases hfind : findById w.reviews id with
    | none => rw [hfind] at hr; exact h r hr
    | some review =>
      rw [hfind] at hr
      dsimp only at hr
      rw [objectIdStrictEqString] at hr
      simp only [Bool.false_eq_true, if_false] at hr
      cases hsave : saveReview false now
          { review with helpfulVotes := applyVote review.helpfulVotes uid vt now } with
      | error msg => rw [hsave] at hr; exact h r hr
      | ok saved =>
        rw [hsave] at hr
        dsimp only at hr
        rcases mem_replaceById hr with rfl | hmem
        · have hfields := (saveReview_ok_fields hsave).1
          rw [hfields]
          exact votesWF_applyVote review.helpfulVotes uid vt now hvt'
            (h review (findById_mem hfind))
        · exact h r hmem

theorem votesWF_applyVoteSeq (ops : List VoteReq) (w : World)
    (h : ∀ r ∈ w.reviews, VotesWF r.helpfulVotes) :
    ∀ r ∈ (applyVoteSeq w ops).reviews, VotesWF r.helpfulVotes := by
  induction ops generalizing w with
  | nil => exact h
  | cons op rest ih =>
    exact ih _ (votesWF_voteOnReview w op.reviewId op.userId op.voteType op.now h)

/-- C1: starting from reviews whose vote counters are zero and whose voter
record list is empty, after any finite sequence of `voteOnReview` operations
every stored review satisfies `helpful + notHelpful = |userVotes|`, and each
counter equals the number of voter records carrying its category. -/
theorem C1_vote_counter_invariant (w : World)
    (h0 : ∀ r ∈ w.reviews, r.helpfulVotes = HelpfulVotes.mk 0 0 []) (ops : List VoteReq) :
    ∀ r ∈ (applyVoteSeq w ops).reviews,
      r.helpfulVotes.helpful + r.helpfulVotes.notHelpful =
        (r.helpfulVotes.userVotes.length : Int) ∧
      r.helpfulVotes.helpful = (countVote "helpful" r.helpfulVotes.userVotes : Int) ∧
      r.helpfulVotes.notHelpful = (countVote "notHelpful" r.helpfulVotes.userVotes : Int) := by
  have hwf : ∀ r ∈ w.reviews, VotesWF r.helpfulVotes := by
    intro r hr
    rw [h0 r hr]
    exact ⟨by simp, by simp [countVote_nil], by simp [countVote_nil]⟩
  intro r hr
  obtain ⟨hmem, hh, hn⟩ := votesWF_applyVoteSeq ops w hwf r hr
  refine ⟨?_, hh, hn⟩
  have htot := countVote_total _ hmem
  omega

/-- Witness for C1: `u2` casts one `helpful` vote on the pending zero-vote
sample review; the resulting stored document satisfies the counter
invariant. -/
theorem C1_vote_counter_invariant_witness :
    c1WitnessReview ∈ (applyVoteSeq worldPending [⟨"r1", "u2", "helpful", 5⟩]).reviews ∧
    c1WitnessReview.helpfulVotes.helpful + c1WitnessReview.helpfulVotes.notHelpful =
      (c1WitnessReview.helpfulVotes.userVotes.length : Int) :=
  ⟨by decide,
    (C1_vote_counter_invariant worldPending (by decide) [⟨"r1", "u2", "helpful", 5⟩]
      c1WitnessReview (by decide)).1⟩


theorem counterIncr_userVotes (hv : HelpfulVotes) (c : String) :
    (counterIncr hv c).userVotes = hv.userVotes := by
  unfold counterIncr
  split
  · rfl
  · split <;> rfl

theorem counterDecr_userVotes (hv : HelpfulVotes) (c : String) :
    (counterDecr hv c).userVotes = hv.userVotes := by
  unfold counterDecr
  split
  · rfl
  · split <;> rfl

theorem counterGet_incr (hv : HelpfulVotes) (vt : String)
    (hvt : vt = "helpful" ∨ vt = "notHelpful") :
    counterGet (counterIncr hv vt) vt = counterGet hv vt + 1 ∧
    counterGet (counterIncr hv vt) (oppositeVote vt) = counterGet hv (oppositeVote vt) := by
  rcases hvt with rfl | rfl <;> constructor <;> simp [counterGet, counterIncr, oppositeVote]

theorem counterGet_decr (hv : HelpfulVotes) (vt : String)
    (hvt : vt = "helpful" ∨ vt = "notHelpful") :
    counterGet (counterDecr hv vt) vt = counterGet hv vt - 1 ∧
    counterGet (counterDecr hv vt) (oppositeVote vt) = counterGet hv (oppositeVote vt) := by
  rcases hvt with rfl | rfl <;> constructor <;> simp [counterGet, counterDecr, oppositeVote]

theorem counterGet_flip (hv : HelpfulVotes) (vt : String)
    (hvt : vt = "helpful" ∨ vt = "notHelpful") :
    counterGet (counterIncr (counterDecr hv (oppositeVote vt)) vt) vt = counterGet hv vt + 1 ∧
    counterGet (counterIncr (counterDecr hv (oppositeVote vt)) vt) (oppositeVote vt) =
      counterGet hv (oppositeVote vt) - 1 := by
  rcases hvt with rfl | rfl <;> constructor <;>
    simp [counterGet, counterIncr, counterDecr, oppositeVote]

theorem findVoteSplit_found (votes : List UserVote) (uid : String) :
    ∀ pre v post, findVoteSplit votes uid = some (pre, v, post) →
      v.userId = uid ∧ ∀ u ∈ pre, u.userId ≠ uid := by
  induction votes with
  | nil => intro pre v post h; simp [findVoteSplit] at h
  | cons a rest ih =>
    intro pre v post h
    rw [findVoteSplit] at h
    split at h
    · rename_i ha
      simp at h
      obtain ⟨h1, h2, h3⟩ := h
      subst h1; subst h2
      exact ⟨by simpa using ha, by simp⟩
    · rename_i ha
      cases hrec : findVoteSplit rest uid with
      | none => rw [hrec] at h; simp at h
      | some p =>
        obtain ⟨pre', u', post'⟩ := p
        rw [hrec] at h
        simp at h
        obtain ⟨h1, h2, h3⟩ := h
        subst h1; subst h2; subst h3
        obtain ⟨hu, hpre⟩ := ih _ _ _ hrec
        refine ⟨hu, ?_⟩
        intro u humem
        simp at humem
        rcases humem with rfl | humem
        · simpa using ha
        · exact hpre u humem

theorem findVoteSplit_none_iff (votes : List UserVote) (uid : String) :
    findVoteSplit votes uid = none ↔ ∀ v ∈ votes, v.userId ≠ uid := by
  induction votes with
  | nil => simp [findVoteSplit]
  | cons a rest ih =>
    rw [findVoteSplit]
    constructor
    · intro h
      split at h
      · simp at h
      · rename_i ha
        cases hrec : findVoteSplit rest uid with
        | none =>
          intro v hvmem
          simp at hvmem
          rcases hvmem with rfl | hvmem
          · simpa using ha
          · exact (ih.mp hrec) v hvmem
        | some p => rw [hrec] at h; obtain ⟨p1, p2, p3⟩ := p; simp at h
    · intro h
      rw [if_neg (by simpa using h a (by simp))]
      cases hrec : findVoteSplit rest uid with
      | none => rfl
      | some p =>
        exfalso
        have := ih.mpr (fun v hvmem => h v (by simp [hvmem]))
        rw [this] at hrec
        exact Option.noConfusion hrec

theorem findVoteSplit_of_parts (pre : List UserVote) (v : UserVote) (post : List UserVote)
    (uid : String) (hpre : ∀ u ∈ pre, u.userId ≠ uid) (hv : v.userId = uid) :
    findVoteSplit (pre ++ v :: post) uid = some (pre, v, post) := by
  induction pre with
  | nil =>
    rw [List.nil_append, findVoteSplit, if_pos (by simpa using hv)]
  | cons a rest ih =>
    rw [List.cons_append, findVoteSplit,
      if_neg (by simpa using hpre a (by simp))]
    rw [ih (fun u hu => hpre u (by simp [hu]))]

theorem applyVote_same {hv : HelpfulVotes} {uid vt : String} {pre post : List UserVote}
    {v : UserVote} (now : Nat)
    (hsplit : findVoteSplit hv.userVotes uid = some (pre, v, post)) (hsame : v.vote = vt) :
    applyVote hv uid vt now = counterDecr { hv with userVotes := pre ++ post } vt := by
  unfold applyVote
  rw [hsplit]
  dsimp only
  rw [if_pos (by simpa using hsame), hsame]

theorem applyVote_flip {hv : HelpfulVotes} {uid vt : String} {pre post : List UserVote}
    {v : UserVote} (now : Nat)
    (hsplit : findVoteSplit hv.userVotes uid = some (pre, v, post)) (hdiff : v.vote ≠ vt) :
    applyVote hv uid vt now =
      counterIncr
        (counterDecr
          { hv with userVotes := pre ++ ({ v with vote := vt, votedAt := now } :: post) }
          v.vote)
        vt := by
  unfold applyVote
  rw [hsplit]
  dsimp only
  rw [if_neg (by simpa using hdiff)]

theorem applyVote_new {hv : HelpfulVotes} {uid vt : String} (now : Nat)
    (hsplit : findVoteSplit hv.userVotes uid = none) :
    applyVote hv uid vt now =
      counterIncr { hv with userVotes := hv.userVotes ++ [⟨uid, vt, now⟩] } vt := by
  unfold applyVote
  rw [hsplit]

theorem counterGet_decr_other (hv : HelpfulVotes) (c vt : String)
    (hvt : vt = "helpful" ∨ vt = "notHelpful") (hne : c ≠ vt) :
    counterGet (counterDecr hv c) vt = counterGet hv vt := by
  rcases hvt with rfl | rfl <;> unfold counterDecr <;> split_ifs with h1 h2 <;>
    simp_all [counterGet]

theorem hvValid_iff (hv : HelpfulVotes) :
    hvValid hv = true ↔
      0 ≤ hv.helpful ∧ 0 ≤ hv.notHelpful ∧
        ∀ v ∈ hv.userVotes, (v.vote = "helpful" ∨ v.vote = "notHelpful") ∧ v.userId ≠ "" := by
  simp [hvValid, voteEnum, List.all_eq_true, and_assoc]

theorem applyVote_userIds {hv : HelpfulVotes} {uid vt : String} {now : Nat} :
    ∀ u ∈ (applyVote hv uid vt now).userVotes,
      u.userId = uid ∨ ∃ v0 ∈ hv.userVotes, u.userId = v0.userId := by
  intro u humem
  unfold applyVote at humem
  cases hsplit : findVoteSplit hv.userVotes uid with
  | none =>
    rw [hsplit] at humem
    dsimp only at humem
    rw [counterIncr_userVotes] at humem
    simp at humem
    rcases humem with humem | rfl
    · right; exact ⟨u, humem, rfl⟩
    · left; rfl
  | some p =>
    obtain ⟨pre, v, post⟩ := p
    have heq := findVoteSplit_eq hv.userVotes uid pre v post hsplit
    rw [hsplit] at humem
    dsimp only at humem
    split at humem
    · rw [counterDecr_userVotes] at humem
      simp at humem
      rcases humem with humem | humem
      · right; exact ⟨u, by rw [heq]; simp [humem], rfl⟩
      · right; exact ⟨u, by rw [heq]; simp [humem], rfl⟩
    · rw [counterIncr_userVotes, counterDecr_userVotes] at humem
      simp at humem
      rcases humem with humem | rfl | humem
      · right; exact ⟨u, by rw [heq]; simp [humem], rfl⟩
      · right; exact ⟨v, by rw [heq]; simp, rfl⟩
      · right; exact ⟨u, by rw [heq]; simp [humem], rfl⟩

theorem hvValid_applyVote (hv : HelpfulVotes) (uid vt : String) (now : Nat)
    (hvt : vt = "helpful" ∨ vt = "notHelpful") (hwf : VotesWF hv)
    (hids : ∀ v ∈ hv.userVotes, v.userId ≠ "") (huid : uid ≠ "") :
    hvValid (applyVote hv uid vt now) = true := by
  obtain ⟨hmem', hh', hn'⟩ := votesWF_applyVote hv uid vt now hvt hwf
  rw [hvValid_iff]
  refine ⟨by rw [hh']; exact Int.ofNat_nonneg _, by rw [hn']; exact Int.ofNat_nonneg _, ?_⟩
  intro v hvmem
  refine ⟨hmem' v hvmem, ?_⟩
  rcases applyVote_userIds v hvmem with rfl | ⟨v0, hv0, heq⟩
  · exact huid
  · rw [heq]; exact hids v0 hv0

theorem schemaValidate_hv {r : Review} {hv' : HelpfulVotes}
    (h : schemaValidate r = true) (hhv : hvValid hv' = true) :
    schemaValidate { r with helpfulVotes := hv' } = true := by
  simp only [schemaValidate, Bool.and_eq_true] at h ⊢
  obtain ⟨⟨⟨⟨⟨⟨⟨⟨b1, b2⟩, b3⟩, b4⟩, b5⟩, b6⟩, b7⟩, b8⟩, b9⟩ := h
  exact ⟨⟨⟨⟨⟨⟨⟨⟨b1, b2⟩, b3⟩, b4⟩, b5⟩, b6⟩, hhv⟩, b8⟩, b9⟩

theorem applyVote_twice (hv : HelpfulVotes) (uid vt : String) (now now2 : Nat)
    (hvt : vt = "helpful" ∨ vt = "notHelpful") (hnodup : OneVotePerVoter hv) :
    counterGet (applyVote (applyVote hv uid vt now) uid vt now2) vt = counterGet hv vt := by
  cases hsplit : findVoteSplit hv.userVotes uid with
  | none =>
    rw [applyVote_new now hsplit]
    have hnone : ∀ u ∈ hv.userVotes, u.userId ≠ uid := (findVoteSplit_none_iff _ _).mp hsplit
    have hsplit2 : findVoteSplit (counterIncr
        { hv with userVotes := hv.userVotes ++ [⟨uid, vt, now⟩] } vt).userVotes uid =
        some (hv.userVotes, ⟨uid, vt, now⟩, []) := by
      rw [counterIncr_userVotes]
      exact findVoteSplit_of_parts hv.userVotes ⟨uid, vt, now⟩ [] uid hnone rfl
    rw [applyVote_same now2 hsplit2 rfl]
    rcases hvt with rfl | rfl <;>
      · simp only [counterGet, counterIncr, counterDecr]
        split_ifs <;> simp_all
  | some p =>
    obtain ⟨pre, v, post⟩ := p
    have heq := findVoteSplit_eq hv.userVotes uid pre v post hsplit
    obtain ⟨hvid, hpre⟩ := findVoteSplit_found hv.userVotes uid pre v post hsplit
    have hnodup' : (pre ++ v :: post).Pairwise (fun a b => a.userId ≠ b.userId) := by
      rw [OneVotePerVoter, heq] at hnodup
      exact hnodup
    have hpost : ∀ u ∈ post, u.userId ≠ uid := by
      have h1 := (List.pairwise_append.mp hnodup').2.1
      have h2 := (List.pairwise_cons.mp h1).1
      intro u humem hcon
      exact h2 u humem (hvid.trans hcon.symm)
    by_cases hsame : v.vote = vt
    · rw [applyVote_same now hsplit hsame]
      have hsplit2 : findVoteSplit (counterDecr
          { hv with userVotes := pre ++ post } vt).userVotes uid = none := by
        rw [counterDecr_userVotes]
        rw [findVoteSplit_none_iff]
        intro u humem
        simp at humem
        rcases humem with humem | humem
        · exact hpre u humem
        · exact hpost u humem
      rw [applyVote_new now2 hsplit2]
      rcases hvt with rfl | rfl <;>
        · simp only [counterGet, counterIncr, counterDecr]
          split_ifs <;> simp_all
    · rw [applyVote_flip now hsplit hsame]
      have hsplit2 : findVoteSplit (counterIncr (counterDecr
          { hv with userVotes := pre ++ ({ v with vote := vt, votedAt := now } :: post) }
          v.vote) vt).userVotes uid =
          some (pre, { v with vote := vt, votedAt := now }, post) := by
        rw [counterIncr_userVotes, counterDecr_userVotes]
        exact findVoteSplit_of_parts pre _ post uid hpre hvid
      rw [applyVote_same now2 hsplit2 rfl]
      rcases hvt with rfl | rfl <;>
        · simp only [counterGet, counterIncr, counterDecr]
          split_ifs <;> simp_all



/-- Replacing only the voter-record list leaves both counters unchanged. -/
theorem counterGet_userVotes (hv : HelpfulVotes) (l : List UserVote) (vt : String) :
    counterGet { hv with userVotes := l } vt = counterGet hv vt := rfl

/-- C2: for a vote with a legal category on an existing review by a
non-author voter (on a well-formed stored document), `voteOnReview` succeeds
and returns the saved mutation, and: a recorded vote of the same category is
retracted (the record removed and that counter decremented by one, the other
counter unchanged); a recorded vote of the opposite category flips (record
updated in place, old counter decremented, new counter incremented); with no
prior record a new record is appended and the matching counter incremented.
Voting the same category twice in a row restores the counter to its prior
value. -/
theorem C2_vote_mutation (w : World) (id uid vt : String) (now : Nat) (r : Review)
    (hfind : findById w.reviews id = some r)
    (hvt : vt = "helpful" ∨ vt = "notHelpful")
    (_hnotauthor : uid ≠ r.userId.oid)
    (hschema : schemaValidate r = true)
    (hblank : (jsStrBlank r.title && jsStrBlank r.comment) = false)
    (hwf : VotesWF r.helpfulVotes)
    (hnodup : OneVotePerVoter r.helpfulVotes)
    (hids : ∀ v ∈ r.helpfulVotes.userVotes, v.userId ≠ "")
    (huid : uid ≠ "") :
    (voteOnReview w id uid vt now).1 = .ok (votedSaved r uid vt now) ∧
    (∀ pre v post, findVoteSplit r.helpfulVotes.userVotes uid = some (pre, v, post) →
        v.vote = vt →
        (votedSaved r uid vt now).helpfulVotes.userVotes = pre ++ post ∧
        counterGet (votedSaved r uid vt now).helpfulVotes vt =
          counterGet r.helpfulVotes vt - 1 ∧
        counterGet (votedSaved r uid vt now).helpfulVotes (oppositeVote vt) =
          counterGet r.helpfulVotes (oppositeVote vt)) ∧
    (∀ pre v post, findVoteSplit r.helpfulVotes.userVotes uid = some (pre, v, post) →
        v.vote ≠ vt →
        (votedSaved r uid vt now).helpfulVotes.userVotes =
          pre ++ ({ v with vote := vt, votedAt := now } :: post) ∧
        counterGet (votedSaved r uid vt now).helpfulVotes vt =
          counterGet r.helpfulVotes vt + 1 ∧
        counterGet (votedSaved r uid vt now).helpfulVotes (oppositeVote vt) =
          counterGet r.helpfulVotes (oppositeVote vt) - 1) ∧
    (findVoteSplit r.helpfulVotes.userVotes uid = none →
        (votedSaved r uid vt now).helpfulVotes.userVotes =
          r.helpfulVotes.userVotes ++ [⟨uid, vt, now⟩] ∧
        counterGet (votedSaved r uid vt now).helpfulVotes vt =
          counterGet r.helpfulVotes vt + 1 ∧
        counterGet (votedSaved r uid vt now).helpfulVotes (oppositeVote vt) =
          counterGet r.helpfulVotes (oppositeVote vt)) ∧
    (∀ now2, counterGet (applyVote (applyVote r.helpfulVotes uid vt now) uid vt now2) vt =
        counterGet r.helpfulVotes vt) := by
  have hcontains : voteEnum.contains vt = true := (voteEnum_contains_iff vt).mpr hvt
  have hval' : schemaValidate { r with helpfulVotes := applyVote r.helpfulVotes uid vt now } =
      true :=
    schemaValidate_hv hschema (hvValid_applyVote r.helpfulVotes uid vt now hvt hwf hids huid)
  have hsaveok : saveReview false now
      { r with helpfulVotes := applyVote r.helpfulVotes uid vt now } =
      .ok (votedSaved r uid vt now) :=
    saveReview_false_ok_eq hval' hblank
  have hrun : (voteOnReview w id uid vt now).1 = .ok (votedSaved r uid vt now) := by
    unfold voteOnReview
    rw [if_neg (by rw [hcontains]; simp), hfind]
    dsimp only
    rw [objectIdStrictEqString]
    simp only [Bool.false_eq_true, if_false]
    rw [hsaveok]
  refine ⟨hrun, ?_, ?_, ?_, ?_⟩
  · intro pre v post hsplit hsame
    have hstep := applyVote_same now hsplit hsame
    refine ⟨?_, ?_, ?_⟩
    · show (applyVote r.helpfulVotes uid vt now).userVotes = pre ++ post
      rw [hstep, counterDecr_userVotes]
    · show counterGet (applyVote r.helpfulVotes uid vt now) vt = _
      rw [hstep, (counterGet_decr _ vt hvt).1, counterGet_userVotes]
    · show counterGet (applyVote r.helpfulVotes uid vt now) (oppositeVote vt) = _
      rw [hstep, (counterGet_decr _ vt hvt).2, counterGet_userVotes]
  · intro pre v post hsplit hdiff
    have hstep := applyVote_flip now hsplit hdiff
    have hvmem : v ∈ r.helpfulVotes.userVotes := by
      rw [findVoteSplit_eq r.helpfulVotes.userVotes uid pre v post hsplit]
      simp
    have hvopp : v.vote = oppositeVote vt := by
      rcases hwf.1 v hvmem with h1 | h1 <;> rcases hvt with rfl | rfl <;>
        simp_all [oppositeVote]
    refine ⟨?_, ?_, ?_⟩
    · show (applyVote r.helpfulVotes uid vt now).userVotes = _
      rw [hstep, counterIncr_userVotes, counterDecr_userVotes]
    · show counterGet (applyVote r.helpfulVotes uid vt now) vt = _
      rw [hstep, hvopp, (counterGet_flip _ vt hvt).1, counterGet_userVotes]
    · show counterGet (applyVote r.helpfulVotes uid vt now) (oppositeVote vt) = _
      rw [hstep, hvopp, (counterGet_flip _ vt hvt).2, counterGet_userVotes]
  · intro hsplit
    have hstep := @applyVote_new r.helpfulVotes uid vt now hsplit
    refine ⟨?_, ?_, ?_⟩
    · show (applyVote r.helpfulVotes uid vt now).userVotes = _
      rw [hstep, counterIncr_userVotes]
    · show counterGet (applyVote r.helpfulVotes uid vt now) vt = _
      rw [hstep, (counterGet_incr _ vt hvt).1, counterGet_userVotes]
    · show counterGet (applyVote r.helpfulVotes uid vt now) (oppositeVote vt) = _
      rw [hstep, (counterGet_incr _ vt hvt).2, counterGet_userVotes]
  · intro now2
    exact applyVote_twice r.helpfulVotes uid vt now now2 hvt hnodup

/-- Witness for C2: `u2` retracts the recorded `helpful` vote on the sample
review; the counter drops from 1 back to 0 and the record disappears. -/
theorem C2_vote_mutation_witness :
    (voteOnReview worldSample "r1" "u2" "helpful" 9).1 =
      .ok (votedSaved reviewSample "u2" "helpful" 9) ∧
    (votedSaved reviewSample "u2" "helpful" 9).helpfulVotes.userVotes = [] ∧
    counterGet (votedSaved reviewSample "u2" "helpful" 9).helpfulVotes "helpful" =
      counterGet reviewSample.helpfulVotes "helpful" - 1 := by
  have h := C2_vote_mutation worldSample "r1" "u2" "helpful" 9 reviewSample
    (by decide) (Or.inl rfl) (by decide) (by decide) (by decide)
    (by exact ⟨by decide, by decide, by decide⟩)
    (by simp [OneVotePerVoter, hvSample, reviewSample])
    (by decide) (by decide)
  have hcase := h.2.1 [] ⟨"u2", "helpful", 5⟩ []
    rfl rfl
  exact ⟨h.1, hcase.1, hcase.2.1⟩



theorem applyUpdateFields_status (r : Review) (u : UpdateData) :
    (applyUpdateFields r u).status = r.status := by
  unfold applyUpdateFields
  cases u.rating <;> cases u.title <;> cases u.comment <;> cases u.images <;>
    cases u.videos <;> rfl

/-- C3: a createReview request by a user whose roles include `admin` or whose
`isAdmin` flag is set always fails with a 403 error carrying the stable code
`ADMIN_CANNOT_REVIEW`, whatever the other request fields, configuration and
external-check outcomes are, and the state is unchanged (no review is
persisted). -/
theorem C3_admin_cannot_create (w : World) (cfg : Config) (pub : EventPublisher)
    (pc : ProductCheck) (qc : PurchaseCheck) (d : ReviewData) (u : User) (now : Nat)
    (fid eid gs : String) (t s : Option String)
    (hadmin : u.roles.contains "admin" = true ∨ u.isAdmin = true) :
    (createReview w cfg pub pc qc d u now fid eid gs t s).1 =
      .error ⟨"Administrators cannot create product reviews to avoid conflict of interest",
        403, some "ADMIN_CANNOT_REVIEW"⟩ ∧
    (createReview w cfg pub pc qc d u now fid eid gs t s).2 = w := by
  have hv : validateUserCanCreateReview u =
      .error ⟨"Administrators cannot create product reviews to avoid conflict of interest",
        403, some "ADMIN_CANNOT_REVIEW"⟩ := by
    unfold validateUserCanCreateReview
    rcases hadmin with h | h <;> rw [if_pos (by rw [h]; simp)]
  unfold createReview createReviewCore
  rw [hv]
  exact ⟨rfl, rfl⟩

/-- Witness for C3: the sample admin's create attempt on the sample world is
rejected with ADMIN_CANNOT_REVIEW. -/
theorem C3_admin_cannot_create_witness :
    (createReview worldSample cfgSample pubOk .noClient .noClient reviewDataSample adminSample 3
      "r9" "e1" "s1" none none).1 =
      .error ⟨"Administrators cannot create product reviews to avoid conflict of interest",
        403, some "ADMIN_CANNOT_REVIEW"⟩ :=
  (C3_admin_cannot_create worldSample cfgSample pubOk .noClient .noClient reviewDataSample
    adminSample 3 "r9" "e1" "s1" none none (Or.inl (by decide))).1

/-- C5 (code bug): `approveReview` on the pending sample review succeeds and
returns the approved review, but no event whatsoever is handed to the
(perfectly working) transport provider: the `publishReviewApproved` call
raises a TypeError (the publisher defines no such method), which the
service's try/catch swallows. In particular no `review.approved` event is
ever published. -/
theorem C5_approved_event_never_published :
    ((approveReview worldPending pubOk "r1" adminSample 10).1.map (fun r => r.status) =
      .ok "approved") ∧
    (approveReview worldPending pubOk "r1" adminSample 10).2.published = [] ∧
    publishReviewApprovedAttempt pubOk =
      .error "TypeError: eventPublisher.publishReviewApproved is not a function" := by
  refine ⟨by rfl, by rfl, rfl⟩

/-- C7 (code bug): the self-vote guard `review.userId === userId` compares a
mongoose ObjectId with the JWT's string and is never true, so the review's
own author (`u1`) can vote on their own review: the call succeeds with a 200
result, the helpful counter rises to 2 and a voter record for `u1` is
stored, instead of failing with a 403. -/
theorem C7_author_can_vote_on_own_review :
    (voteOnReview worldSample "r1" "u1" "helpful" 7).1 =
      .ok (votedSaved reviewSample "u1" "helpful" 7) ∧
    (votedSaved reviewSample "u1" "helpful" 7).helpfulVotes.helpful = 2 ∧
    ((votedSaved reviewSample "u1" "helpful" 7).helpfulVotes.userVotes.map (fun v => v.userId)) =
      ["u2", "u1"] ∧
    reviewSample.userId.oid = "u1" := by
  refine ⟨by rfl, by decide, by decide, rfl⟩

/-- C10: a successful `voteOnReview` changes nothing outside the
helpfulVotes block and the audit stamps: rating, title, comment, status,
productId, userId, username, isVerifiedPurchase, orderReference, createdAt
and createdBy all keep their prior values. -/
theorem C10_vote_frame (w : World) (id uid vt : String) (now : Nat) (r r' : Review)
    (hfind : findById w.reviews id = some r)
    (hok : (voteOnReview w id uid vt now).1 = .ok r') :
    r'.rating = r.rating ∧ r'.title = r.title ∧ r'.comment = r.comment ∧
    r'.status = r.status ∧ r'.productId = r.productId ∧ r'.userId = r.userId ∧
    r'.username = r.username ∧ r'.isVerifiedPurchase = r.isVerifiedPurchase ∧
    r'.orderReference = r.orderReference ∧ r'.createdAt = r.createdAt ∧
    r'.createdBy = r.createdBy := by
  unfold voteOnReview at hok
  split at hok
  · simp at hok
  · rw [hfind] at hok
    dsimp only at hok
    rw [objectIdStrictEqString] at hok
    simp only [Bool.false_eq_true, if_false] at hok
    cases hsave : saveReview false now
        { r with helpfulVotes := applyVote r.helpfulVotes uid vt now } with
    | error msg => rw [hsave] at hok; simp at hok
    | ok saved =>
      rw [hsave] at hok
      dsimp only at hok
      replace hok : saved = r' := by simpa using hok
      subst hok
      have hform := saveReview_false_ok hsave
      rw [hform]
      exact ⟨rfl, rfl, rfl, rfl, rfl, rfl, rfl, rfl, rfl, rfl, rfl⟩

/-- Witness for C10: `u3` votes `notHelpful` on the sample review; every
content and identity field of the stored result matches the prior document. -/
theorem C10_vote_frame_witness :
    (voteOnReview worldSample "r1" "u3" "notHelpful" 9).1 =
      .ok (votedSaved reviewSample "u3" "notHelpful" 9) ∧
    (votedSaved reviewSample "u3" "notHelpful" 9).rating = reviewSample.rating ∧
    (votedSaved reviewSample "u3" "notHelpful" 9).status = reviewSample.status :=
  have h := C10_vote_frame worldSample "r1" "u3" "notHelpful" 9 reviewSample
    (votedSaved reviewSample "u3" "notHelpful" 9) (by decide) (by rfl)
  ⟨by rfl, h.1, h.2.2.2.1⟩



/-- C8: when the owning author successfully updates a review, the stored
status is reset to `pending` whenever the request carried a rating or a
comment (body), and keeps its prior value when neither was provided (in
particular when only media fields were touched). -/
theorem C8_update_status_reset (w : World) (pub : EventPublisher) (id uid : String)
    (u : UpdateData) (now : Nat) (eid gs : String) (t s : Option String) (r r' : Review)
    (hfind : findById w.reviews id = some r)
    (hok : (updateReview w pub id uid u now eid gs t s).1 = .ok r') :
    ((u.rating.isSome ∨ u.comment.isSome) → r'.status = "pending") ∧
    (u.rating = none → u.comment = none → r'.status = r.status) := by
  cases hcore : updateReviewCore w.reviews id uid u now with
  | error e =>
    unfold updateReview at hok
    rw [hcore] at hok
    simp at hok
  | ok p =>
    obtain ⟨saved, prev⟩ := p
    unfold updateReview at hok
    rw [hcore] at hok
    dsimp only at hok
    replace hok : saved = r' := by simpa using hok
    subst hok
    unfold updateReviewCore at hcore
    rw [hfind] at hcore
    dsimp only at hcore
    split at hcore
    · simp at hcore
    · split at hcore
      · simp at hcore
      · rename_i saved1 hsave
        replace hcore : saved1 = saved ∧ r.rating = prev := by simpa using hcore
        obtain ⟨rfl, -⟩ := hcore
        have hstat := (saveReview_ok_fields hsave).2.2.2.2
        constructor
        · intro hcontent
          rw [hstat]
          have hc : (u.rating.isSome || u.comment.isSome) = true := by
            rcases hcontent with h | h <;> simp [h]
          rw [if_pos hc]
        · intro h1 h2
          rw [hstat]
          rw [if_neg (by simp [h1, h2])]
          exact applyUpdateFields_status r u

/-- Witness for C8: a rating-only update by the author resets the approved
sample review to pending; a media-only update keeps it approved. -/
theorem C8_update_status_reset_witness :
    (updateReview worldSample pubNone "r1" "u1" ⟨some 3, none, none, none, none⟩ 7
        "e" "s" none none).1 = .ok c8RatingUpdated ∧
    c8RatingUpdated.status = "pending" ∧
    (updateReview worldSample pubNone "r1" "u1" ⟨none, none, none, some ["img"], none⟩ 7
        "e" "s" none none).1 = .ok c8MediaUpdated ∧
    c8MediaUpdated.status = reviewSample.status := by
  refine ⟨by rfl, ?_, by rfl, ?_⟩
  · exact (C8_update_status_reset worldSample pubNone "r1" "u1"
      ⟨some 3, none, none, none, none⟩ 7 "e" "s" none none reviewSample c8RatingUpdated
      (by decide) (by rfl)).1 (Or.inl (by decide))
  · exact (C8_update_status_reset worldSample pubNone "r1" "u1"
      ⟨none, none, none, some ["img"], none⟩ 7 "e" "s" none none reviewSample c8MediaUpdated
      (by decide) (by rfl)).2 rfl rfl



theorem applyUpdateFields_pair (r : Review) (u : UpdateData) :
    (applyUpdateFields r u).productId = r.productId ∧
    (applyUpdateFields r u).userId = r.userId := by
  unfold applyUpdateFields
  cases u.rating <;> cases u.title <;> cases u.comment <;> cases u.images <;>
    cases u.videos <;> exact ⟨rfl, rfl⟩

theorem bulkApplySet_pair (action : String) (admin : User) (reason : Option String)
    (now : Nat) (r : Review) :
    (bulkApplySet action admin reason now r).productId = r.productId ∧
    (bulkApplySet action admin reason now r).userId = r.userId := by
  unfold bulkApplySet
  split_ifs <;> exact ⟨rfl, rfl⟩

theorem removeById_sublist (l : List Review) (id : String) :
    (removeById l id).Sublist l := by
  induction l with
  | nil => simp [removeById]
  | cons b rest ih =>
    rw [removeById]
    split
    · exact List.sublist_cons_self b rest
    · exact ih.cons₂ b

theorem recordPublish_reviews (w : World) (res : PublishResult) :
    (recordPublish w res).reviews = w.reviews := by
  unfold recordPublish
  cases res with
  | ok p => obtain ⟨b, evs⟩ := p; rfl
  | error e => rfl

theorem pairUnique_replaceById {l : List Review} {id : String} {x r0 : Review}
    (hpu : PairUnique l) (hfind : findById l id = some r0) (hsp : samePair r0 x) :
    PairUnique (replaceById l id x) := by
  induction l with
  | nil => simp [replaceById, PairUnique]
  | cons b rest ih =>
    rw [PairUnique, List.pairwise_cons] at hpu
    obtain ⟨hb, hrest⟩ := hpu
    rw [PairUnique, replaceById]
    by_cases hbid : (b.id == id) = true
    · rw [if_pos hbid]
      have hb0 : b = r0 := by
        simp only [findById, List.find?, hbid] at hfind
        simpa using hfind
      rw [List.pairwise_cons]
      refine ⟨?_, hrest⟩
      intro c hc hcon
      exact hb c hc ⟨(hb0 ▸ hsp.1).trans hcon.1, (hb0 ▸ hsp.2).trans hcon.2⟩
    · rw [if_neg hbid]
      have hfind' : findById rest id = some r0 := by
        have hbid' : (b.id == id) = false := by simpa using hbid
        simp only [findById, List.find?, hbid'] at hfind
        exact hfind
      rw [List.pairwise_cons]
      refine ⟨?_, ih hrest hfind'⟩
      intro c hc
      rcases mem_replaceById hc with rfl | hcm
      · intro hcon
        exact hb r0 (findById_mem hfind') ⟨hcon.1.trans hsp.1.symm, hcon.2.trans hsp.2.symm⟩
      · exact hb c hcm

theorem pairUnique_map {l : List Review} (g : Review → Review)
    (hg : ∀ r, (g r).productId = r.productId ∧ (g r).userId = r.userId)
    (hpu : PairUnique l) : PairUnique (l.map g) := by
  refine List.Pairwise.map g ?_ hpu
  intro a b hn hc
  exact hn ⟨((hg a).1.symm.trans hc.1).trans (hg b).1, ((hg a).2.symm.trans hc.2).trans (hg b).2⟩

theorem pairUnique_sublist {l1 l2 : List Review} (h : l1.Sublist l2)
    (hpu : PairUnique l2) : PairUnique l1 :=
  List.Pairwise.sublist h hpu

theorem pairUnique_append_new {l : List Review} {x : Review}
    (hpu : PairUnique l) (hnew : ∀ r ∈ l, ¬ samePair r x) :
    PairUnique (l ++ [x]) := by
  rw [PairUnique, List.pairwise_append]
  exact ⟨hpu, List.pairwise_singleton _ _, fun a ha b hb => by
    simp at hb
    subst hb
    exact hnew a ha⟩

theorem createReviewCore_ok_inv {rs : List Review} {cfg : Config} {pc : ProductCheck}
    {qc : PurchaseCheck} {d : ReviewData} {u : User} {now : Nat} {fid : String}
    {saved : Review} (h : createReviewCore rs cfg pc qc d u now fid = .ok saved) :
    rs.find? (fun r => r.productId.oid == d.productId && r.userId.oid == u.userId) = none ∧
    saved.productId = ⟨d.productId⟩ ∧ saved.userId = ⟨u.userId⟩ := by
  unfold createReviewCore at h
  cases hval : validateUserCanCreateReview u with
  | error e => rw [hval] at h; simp at h
  | ok unitv =>
    rw [hval] at h
    dsimp only at h
    cases hfind : rs.find?
        (fun r => r.productId.oid == d.productId && r.userId.oid == u.userId) with
    | some r1 => rw [hfind] at h; simp at h
    | none =>
      rw [hfind] at h
      dsimp only at h
      refine ⟨rfl, ?_⟩
      cases hprod : validateProduct pc with
      | error e => rw [hprod] at h; simp at h
      | ok b =>
        rw [hprod] at h
        dsimp only at h
        split at h
        · simp at h
        · split at h
          · simp at h
          · rename_i saved1 hsave
            replace h : saved1 = saved := by simpa using h
            subst h
            obtain ⟨-, hp, hu, -, -⟩ := saveReview_ok_fields hsave
            exact ⟨hp, hu⟩



theorem updateReviewCore_ok_inv {rs : List Review} {id uid : String} {u : UpdateData}
    {now : Nat} {saved : Review} {prev : Int}
    (h : updateReviewCore rs id uid u now = .ok (saved, prev)) :
    ∃ r0, findById rs id = some r0 ∧ samePair r0 saved := by
  unfold updateReviewCore at h
  cases hfind : findById rs id with
  | none => rw [hfind] at h; simp at h
  | some r0 =>
    rw [hfind] at h
    dsimp only at h
    split at h
    · simp at h
    · split at h
      · simp at h
      · rename_i saved1 hsave
        replace h : saved1 = saved ∧ r0.rating = prev := by simpa using h
        obtain ⟨rfl, -⟩ := h
        obtain ⟨-, hp, hu, -, -⟩ := saveReview_ok_fields hsave
        refine ⟨r0, rfl, ?_, ?_⟩
        · rw [hp]
          have h1 : (applyUpdateFields r0 u).productId = r0.productId :=
            (applyUpdateFields_pair r0 u).1
          split <;> exact h1.symm
        · rw [hu]
          have h1 : (applyUpdateFields r0 u).userId = r0.userId :=
            (applyUpdateFields_pair r0 u).2
          split <;> exact h1.symm

theorem approveReviewCore_ok_inv {rs : List Review} {id : String} {admin : User}
    {now : Nat} {saved : Review}
    (h : approveReviewCore rs id admin now = .ok saved) :
    ∃ r0, findById rs id = some r0 ∧ samePair r0 saved := by
  unfold approveReviewCore at h
  cases hfind : findById rs id with
  | none => rw [hfind] at h; simp at h
  | some r0 =>
    rw [hfind] at h
    dsimp only at h
    split at h
    · simp at h
    · split at h
      · simp at h
      · rename_i saved1 hsave
        replace h : saved1 = saved := by simpa using h
        subst h
        obtain ⟨-, hp, hu, -, -⟩ := saveReview_ok_fields hsave
        exact ⟨r0, rfl, hp.symm ▸ rfl, hu.symm ▸ rfl⟩

/-- C6 (amended): every state-changing service operation preserves the
at-most-one-review-per-(product, author) invariant, and a createReview call
for a pair that already has a review fails with the 409 conflict error and
leaves the state unchanged whenever the caller passes the admin/inactive
gate (an admin or inactive caller fails earlier with 403). -/
theorem C6_pair_unique (w : World) :
    (PairUnique w.reviews → ∀ op : ServiceOp, PairUnique (applyOp w op).reviews) ∧
    (∀ cfg pub pc qc d (u : User) now fid eid gs t s,
      u.roles.contains "admin" = false → u.isAdmin = false → u.isActive ≠ some false →
      (∃ r ∈ w.reviews, r.productId.oid = d.productId ∧ r.userId.oid = u.userId) →
      createReview w cfg pub pc qc d u now fid eid gs t s =
        (.error ⟨"User has already reviewed this product", 409, none⟩, w)) := by
  constructor
  · intro hpu op
    cases op with
    | create cfg pub pc qc d u now fid eid gs t s =>
      simp only [applyOp]
      unfold createReview
      cases hcore : createReviewCore w.reviews cfg pc qc d u now fid with
      | error e => exact hpu
      | ok saved =>
        dsimp only
        rw [recordPublish_reviews]
        obtain ⟨hnone, hp, hu⟩ := createReviewCore_ok_inv hcore
        refine pairUnique_append_new hpu ?_
        intro r hr hcon
        have hpred := List.find?_eq_none.mp hnone r hr
        have hrp : r.productId.oid = d.productId := by
          rw [hcon.1, hp]
        have hru : r.userId.oid = u.userId := by
          rw [hcon.2, hu]
        simp [hrp, hru] at hpred
    | update pub id uid d now eid gs t s =>
      simp only [applyOp]
      unfold updateReview
      cases hcore : updateReviewCore w.reviews id uid d now with
      | error e => exact hpu
      | ok p =>
        obtain ⟨saved, prev⟩ := p
        dsimp only
        rw [recordPublish_reviews]
        obtain ⟨r0, hfind, hsp⟩ := updateReviewCore_ok_inv hcore
        exact pairUnique_replaceById hpu hfind hsp
    | delete pub id uid now eid gs t s =>
      simp only [applyOp]
      unfold deleteReview
      cases hcore : deleteReviewCore w.reviews id uid with
      | error e => exact hpu
      | ok review =>
        dsimp only
        rw [recordPublish_reviews]
        exact pairUnique_sublist (removeById_sublist w.reviews id) hpu
    | vote id uid vt now =>
      simp only [applyOp]
      unfold voteOnReview
      split
      · exact hpu
      · cases hfind : findById w.reviews id with
        | none => exact hpu
        | some review =>
          dsimp only
          rw [objectIdStrictEqString]
          simp only [Bool.false_eq_true, if_false]
          cases hsave : saveReview false now
              { review with helpfulVotes := applyVote review.helpfulVotes uid vt now } with
          | error msg => exact hpu
          | ok saved =>
            dsimp only
            obtain ⟨-, hp, hu, -, -⟩ := saveReview_ok_fields hsave
            exact pairUnique_replaceById hpu hfind ⟨hp.symm ▸ rfl, hu.symm ▸ rfl⟩
    | approve pub id admin now =>
      simp only [applyOp]
      unfold approveReview
      cases hcore : approveReviewCore w.reviews id admin now with
      | error e => exact hpu
      | ok saved =>
        dsimp only
        rw [recordPublish_reviews]
        obtain ⟨r0, hfind, hsp⟩ := approveReviewCore_ok_inv hcore
        exact pairUnique_replaceById hpu hfind hsp
    | reject id admin reason now =>
      simp only [applyOp]
      unfold rejectReview
      cases hfind : findById w.reviews id with
      | none => exact hpu
      | some review =>
        dsimp only
        split
        · exact hpu
        · cases hsave : saveReview false now
              { review with
                status := "rejected",
                updatedBy := admin.userId,
                metadata := { review.metadata with
                  moderatedAt := some now, moderatedBy := some admin.userId,
                  rejectionReason := some reason } } with
          | error msg => exact hpu
          | ok saved =>
            dsimp only
            obtain ⟨-, hp, hu, -, -⟩ := saveReview_ok_fields hsave
            exact pairUnique_replaceById hpu hfind ⟨hp.symm ▸ rfl, hu.symm ▸ rfl⟩
    | hide id admin reason now =>
      simp only [applyOp]
      unfold hideReview
      cases hfind : findById w.reviews id with
      | none => exact hpu
      | some review =>
        dsimp only
        split
        · exact hpu
        · cases hsave : saveReview false now
              { review with
                status := "hidden",
                updatedBy := admin.userId,
                metadata := { review.metadata with
                  hiddenAt := some now, hiddenBy := some admin.userId,
                  hideReason := some reason } } with
          | error msg => exact hpu
          | ok saved =>
            dsimp only
            obtain ⟨-, hp, hu, -, -⟩ := saveReview_ok_fields hsave
            exact pairUnique_replaceById hpu hfind ⟨hp.symm ▸ rfl, hu.symm ▸ rfl⟩
    | bulkModerate ids action admin reason now =>
      simp only [applyOp]
      unfold bulkModerateReviews
      split
      · exact hpu
      · split
        · exact hpu
        · refine pairUnique_map _ ?_ hpu
          intro r
          split
          · exact bulkApplySet_pair action admin reason now r
          · exact ⟨rfl, rfl⟩
  · intro cfg pub pc qc d u now fid eid gs t s h1 h2 h3 hdup
    obtain ⟨r, hr, hp, hu⟩ := hdup
    have hval : validateUserCanCreateReview u = .ok () := by
      unfold validateUserCanCreateReview
      rw [if_neg (by rw [h1, h2]; simp), if_neg (by simp [h3])]
    unfold createReview createReviewCore
    rw [hval]
    dsimp only
    cases hfind : w.reviews.find?
        (fun r => r.productId.oid == d.productId && r.userId.oid == u.userId) with
    | none =>
      exfalso
      have := List.find?_eq_none.mp hfind r hr
      simp [hp, hu] at this
    | some r1 => rfl



/-- C6 counterexample: the claim "a createReview call for a pair that
already has an existing review always fails with a 409 ConflictError" fails
when the caller is an admin: `u1` (author of the stored review on `p1`, now
carrying the admin role) gets the 403 ADMIN_CANNOT_REVIEW error, not a 409,
because the admin gate runs before the duplicate check. -/
theorem C6_duplicate_not_always_409 :
    (createReview worldSample cfgSample pubOk .noClient .noClient reviewDataSample
      adminOwnerSample 3 "r9" "e1" "s1" none none).1 =
      .error ⟨"Administrators cannot create product reviews to avoid conflict of interest",
        403, some "ADMIN_CANNOT_REVIEW"⟩ ∧
    reviewSample ∈ worldSample.reviews ∧
    reviewSample.productId.oid = reviewDataSample.productId ∧
    reviewSample.userId.oid = adminOwnerSample.userId := by
  refine ⟨by rfl, by decide, by decide, by decide⟩

/-- Witness for C6: a non-admin active caller whose (product, author) pair
already exists gets the 409 conflict and the state is unchanged; and the
invariant survives a concrete vote operation. -/
theorem C6_pair_unique_witness :
    createReview worldSample cfgSample pubOk .noClient .noClient reviewDataSample
      customerOwnerSample 3 "r9" "e1" "s1" none none =
      (.error ⟨"User has already reviewed this product", 409, none⟩, worldSample) ∧
    PairUnique (applyOp worldSample (.vote "r1" "u2" "helpful" 9)).reviews := by
  constructor
  · exact (C6_pair_unique worldSample).2 cfgSample pubOk .noClient .noClient reviewDataSample
      customerOwnerSample 3 "r9" "e1" "s1" none none (by decide) (by decide) (by decide)
      ⟨reviewSample, by decide, by decide, by decide⟩
  · exact (C6_pair_unique worldSample).1
      (by simp [PairUnique, worldSample]) (.vote "r1" "u2" "helpful" 9)



/-- C9: when no messaging provider is initialized, every publish method of
the event publisher resolves to `false` without raising; and the results of
createReview, updateReview and deleteReview (domain result and stored
reviews) do not depend on the publisher at all — any exception or failure of
the best-effort publish is caught and the persisted result is still
returned. -/
theorem C9_publish_never_fails :
    (∀ (pub : EventPublisher), pub.provider = none →
      (∀ topic evtype data t s now eid gs,
        pub.publishEvent topic evtype data t s now eid gs = .ok (false, [])) ∧
      (∀ review t s now eid gs,
        pub.publishReviewCreated review t s now eid gs = .ok (false, [])) ∧
      (∀ review prev t s now eid gs,
        pub.publishReviewUpdated review prev t s now eid gs = .ok (false, [])) ∧
      (∀ review t s now eid gs,
        pub.publishReviewDeleted review t s now eid gs = .ok (false, []))) ∧
    (∀ w cfg pub pub' pc qc d u now fid eid gs t s,
      (createReview w cfg pub pc qc d u now fid eid gs t s).1 =
        (createReview w cfg pub' pc qc d u now fid eid gs t s).1 ∧
      (createReview w cfg pub pc qc d u now fid eid gs t s).2.reviews =
        (createReview w cfg pub' pc qc d u now fid eid gs t s).2.reviews) ∧
    (∀ w pub pub' id uid ud now eid gs t s,
      (updateReview w pub id uid ud now eid gs t s).1 =
        (updateReview w pub' id uid ud now eid gs t s).1 ∧
      (updateReview w pub id uid ud now eid gs t s).2.reviews =
        (updateReview w pub' id uid ud now eid gs t s).2.reviews) ∧
    (∀ w pub pub' id uid now eid gs t s,
      (deleteReview w pub id uid now eid gs t s).1 =
        (deleteReview w pub' id uid now eid gs t s).1 ∧
      (deleteReview w pub id uid now eid gs t s).2.reviews =
        (deleteReview w pub' id uid now eid gs t s).2.reviews) := by
  refine ⟨?_, ?_, ?_, ?_⟩
  · intro pub hnone
    refine ⟨?_, ?_, ?_, ?_⟩
    · intro topic evtype data t s now eid gs
      unfold EventPublisher.publishEvent
      rw [hnone]
    · intro review t s now eid gs
      unfold EventPublisher.publishReviewCreated
      rw [hnone]
    · intro review prev t s now eid gs
      unfold EventPublisher.publishReviewUpdated
      rw [hnone]
    · intro review t s now eid gs
      unfold EventPublisher.publishReviewDeleted
      rw [hnone]
  · intro w cfg pub pub' pc qc d u now fid eid gs t s
    unfold createReview
    cases hcore : createReviewCore w.reviews cfg pc qc d u now fid with
    | error e => exact ⟨rfl, rfl⟩
    | ok saved =>
      dsimp only
      exact ⟨rfl, by rw [recordPublish_reviews, recordPublish_reviews]⟩
  · intro w pub pub' id uid ud now eid gs t s
    unfold updateReview
    cases hcore : updateReviewCore w.reviews id uid ud now with
    | error e => exact ⟨rfl, rfl⟩
    | ok p =>
      obtain ⟨saved, prev⟩ := p
      dsimp only
      exact ⟨rfl, by rw [recordPublish_reviews, recordPublish_reviews]⟩
  · intro w pub pub' id uid now eid gs t s
    unfold deleteReview
    cases hcore : deleteReviewCore w.reviews id uid with
    | error e => exact ⟨rfl, rfl⟩
    | ok review =>
      dsimp only
      exact ⟨rfl, by rw [recordPublish_reviews, recordPublish_reviews]⟩

/-- Witness for C9: with an uninitialized publisher the created-event
publish resolves to false, and a concrete createReview returns the same
domain result under a working provider and under no provider. -/
theorem C9_publish_never_fails_witness :
    pubNone.publishReviewCreated reviewSample none none 3 "e" "s" = .ok (false, []) ∧
    (createReview worldSample cfgSample pubOk .noClient .noClient reviewDataSample
      customerSample 3 "r9" "e1" "s1" none none).1 =
      (createReview worldSample cfgSample pubNone .noClient .noClient reviewDataSample
        customerSample 3 "r9" "e1" "s1" none none).1 :=
  ⟨(C9_publish_never_fails.1 pubNone rfl).2.1 reviewSample none none 3 "e" "s",
   (C9_publish_never_fails.2.1 worldSample cfgSample pubOk pubNone .noClient .noClient
     reviewDataSample customerSample 3 "r9" "e1" "s1" none none).1⟩



theorem schemaValidate_mod {r : Review} (h : schemaValidate r = true) (st ub : String)
    (m : ReviewMetadata) (hst : statusEnum.contains st = true) (hub : ub ≠ "") :
    schemaValidate { r with status := st, updatedBy := ub, metadata := m } = true := by
  simp only [schemaValidate, Bool.and_eq_true] at h ⊢
  obtain ⟨⟨⟨⟨⟨⟨⟨⟨b1, b2⟩, b3⟩, b4⟩, b5⟩, b6⟩, b7⟩, b8⟩, b9⟩ := h
  exact ⟨⟨⟨⟨⟨⟨⟨⟨b1, b2⟩, b3⟩, b4⟩, b5⟩, hst⟩, b7⟩, b8⟩, by simpa using hub⟩

/-- C4 counterexample: rejecting without a reason does fail, but with a
plain 400 response carrying no stable code at all — the `REASON_REQUIRED`
code the claim promises appears nowhere: the single-review controller
response has `errorCode = none`, and the bulk service error also carries no
code. -/
theorem C4_no_reason_required_code :
    (rejectReviewCtrl worldSample "r1" adminSample none 4).1 =
      ⟨400, false, "Rejection reason is required", none⟩ ∧
    (rejectReviewCtrl worldSample "r1" adminSample none 4).1.errorCode ≠
      some "REASON_REQUIRED" ∧
    (bulkModerateReviews worldSample ["r1"] "reject" adminSample none 4).1 =
      .error ⟨"Reason is required for reject action", 400, none⟩ ∧
    (hideReviewCtrl worldSample "r1" adminSample (some "") 4).1 =
      ⟨400, false, "Hide reason is required", none⟩ := by
  refine ⟨by rfl, by decide, by rfl, by rfl⟩

/-- C4 (amended): rejecting or hiding (single or bulk) with an absent or
empty reason always fails with a 400 error and leaves the state unchanged —
but via a plain message, with no `REASON_REQUIRED` code anywhere — while
approving never requires a reason: it succeeds whenever the review exists,
is not already approved, and the stored document is save-valid. -/
theorem C4_reason_rules (w : World) (id : String) (ids : List String) (admin : User)
    (reason : Option String) (now : Nat) (hfalsy : jsStrFalsy reason = true) :
    (rejectReviewCtrl w id admin reason now =
      (⟨400, false, "Rejection reason is required", none⟩, w)) ∧
    (hideReviewCtrl w id admin reason now =
      (⟨400, false, "Hide reason is required", none⟩, w)) ∧
    (bulkModerateReviews w ids "reject" admin reason now =
      (.error ⟨"Reason is required for reject action", 400, none⟩, w)) ∧
    (bulkModerateReviews w ids "hide" admin reason now =
      (.error ⟨"Reason is required for hide action", 400, none⟩, w)) ∧
    (∀ pub r, findById w.reviews id = some r → r.status ≠ "approved" →
      schemaValidate r = true → admin.userId ≠ "" →
      (jsStrBlank r.title && jsStrBlank r.comment) = false →
      (approveReview w pub id admin now).1 = .ok (approvedSaved r admin now)) := by
  refine ⟨?_, ?_, ?_, ?_, ?_⟩
  · unfold rejectReviewCtrl
    rw [if_pos hfalsy]
  · unfold hideReviewCtrl
    rw [if_pos hfalsy]
  · unfold bulkModerateReviews
    rw [if_neg (by decide), if_pos (by simp [hfalsy])]
    rfl
  · unfold bulkModerateReviews
    rw [if_neg (by decide), if_pos (by simp [hfalsy])]
    rfl
  · intro pub r hfind hnotapp hval hub hblank
    unfold approveReview approveReviewCore
    rw [hfind]
    dsimp only
    rw [if_neg (by simpa using hnotapp)]
    have hsave := @saveReview_false_ok_eq now
      { r with
        status := "approved",
        updatedBy := admin.userId,
        metadata := { r.metadata with moderatedAt := some now, moderatedBy := some admin.userId } }
      (schemaValidate_mod hval "approved" admin.userId
        { r.metadata with moderatedAt := some now, moderatedBy := some admin.userId }
        (by decide) hub) hblank
    rw [hsave]
    rfl

/-- Witness for C4: the no-reason reject on the sample world, and a
successful reasonless approve of the pending sample review. -/
theorem C4_reason_rules_witness :
    rejectReviewCtrl worldSample "r1" adminSample none 4 =
      (⟨400, false, "Rejection reason is required", none⟩, worldSample) ∧
    (approveReview worldPending pubOk "r1" adminSample 10).1 =
      .ok (approvedSaved { reviewSample with status := "pending", helpfulVotes := ⟨0, 0, []⟩ }
        adminSample 10) := by
  constructor
  · exact (C4_reason_rules worldSample "r1" ["r1"] adminSample none 4 rfl).1
  · exact (C4_reason_rules worldPending "r1" [] adminSample none 10 rfl).2.2.2.2 pubOk
      { reviewSample with status := "pending", helpfulVotes := ⟨0, 0, []⟩ }
      (by decide) (by decide) (by decide) (by decide) (by decide)

end ReviewSvc
